import Mathlib

/-!
Verification development for the QuoteVaultManager repository.

The Python sources under src/quote_vault_manager are embedded shallowly:
file contents are lists of characters, the filesystem is an association
list from paths to contents, and every Python function used by the
synchronization engine is translated into an executable Lean definition
carrying the same name (camel-cased).  Python exceptions that can escape
the engine are modelled with an explicit error type; functions that can
raise return the filesystem state reached at the moment of the raise
together with an `Except` value, so that partial effects stay observable.

Layer order: Python string primitives, a flat YAML fragment, the
filesystem, the quote parser, the source-file model, the destination-file
model, the vaults, the metadata transformations, the quote-sync service,
and finally the full pass `sync_vaults` from services/sync.py.
-/

namespace QVM

/-- PyStr models a Python str as a list of characters. -/
abbrev PyStr := List Char

/-- Converts a Lean string literal into its PyStr representation. -/
def pstr (s : String) : PyStr := s.data

/-- Models membership of a character in the Python default whitespace set
stripped by str.strip() (space, tab, newline, carriage return, vertical
tab, form feed). -/
def pyIsWs (c : Char) : Bool :=
  c == ' ' || c == '\t' || c == '\n' || c == '\r' || c == '\x0b' || c == '\x0c'

/-- Models Python str.lstrip() with no arguments. -/
def pyLstripWs (s : PyStr) : PyStr := s.dropWhile pyIsWs

/-- Models Python str.rstrip() with no arguments. -/
def pyRstripWs (s : PyStr) : PyStr := (s.reverse.dropWhile pyIsWs).reverse

/-- Models Python str.strip() with no arguments. -/
def pyStripWs (s : PyStr) : PyStr := pyRstripWs (pyLstripWs s)

/-- Models Python str.lstrip(chars): removes leading characters drawn from
the given set. -/
def pyLstripSet (cs : PyStr) (s : PyStr) : PyStr := s.dropWhile (fun c => cs.contains c)

/-- Models Python str.rstrip(chars). -/
def pyRstripSet (cs : PyStr) (s : PyStr) : PyStr :=
  ((s.reverse).dropWhile (fun c => cs.contains c)).reverse

/-- Models Python str.strip(chars). -/
def pyStripSet (cs : PyStr) (s : PyStr) : PyStr := pyRstripSet cs (pyLstripSet cs s)

/-- Models Python s.startswith(pat). -/
def pyStartsWith (s pat : PyStr) : Bool :=
  match pat, s with
  | [], _ => true
  | _ :: _, [] => false
  | p :: ps, c :: cs => p == c && pyStartsWith cs ps

/-- Models Python s.endswith(pat). -/
def pyEndsWith (s pat : PyStr) : Bool := pyStartsWith s.reverse pat.reverse

/-- Index of the first occurrence of a substring, as in Python str.find
restricted to the found case. -/
def pyFindSub (s pat : PyStr) : Option Nat :=
  match s with
  | [] => if pat.isEmpty then some 0 else none
  | _ :: t => if pyStartsWith s pat then some 0 else (pyFindSub t pat).map (· + 1)

/-- Models the Python substring containment test (pat in s). -/
def pyContainsSub (s pat : PyStr) : Bool := (pyFindSub s pat).isSome

/-- Fueled worker for pySplitSub; the fuel is an upper bound on the number
of produced parts and is always sufficient at the call site. -/
def pySplitSubGo (fuel : Nat) (s pat : PyStr) (maxsplit : Nat) : List PyStr :=
  match fuel with
  | 0 => [s]
  | fuel + 1 =>
    if maxsplit = 0 then [s]
    else
      match pyFindSub s pat with
      | none => [s]
      | some i => s.take i :: pySplitSubGo fuel (s.drop (i + pat.length)) pat (maxsplit - 1)

/-- Models Python s.split(pat, maxsplit) for a nonempty separator pat. -/
def pySplitSub (s pat : PyStr) (maxsplit : Nat) : List PyStr :=
  pySplitSubGo (s.length + 1) s pat maxsplit

/-- Models Python s.replace(old, new) for a nonempty old; implemented as
split on every occurrence followed by interleaving new. -/
def pyReplaceSub (s old new : PyStr) : PyStr :=
  List.intercalate new (pySplitSub s old (s.length + 1))

/-- Splits on every occurrence of a single character, as Python
s.split(c) does; the result is never empty. -/
def pySplitChar (s : PyStr) (sep : Char) : List PyStr :=
  match s with
  | [] => [[]]
  | c :: t =>
    let r := pySplitChar t sep
    if c == sep then [] :: r
    else
      match r with
      | h :: t2 => (c :: h) :: t2
      | [] => [[c]]

/-- Models Python str.splitlines() for contents whose only line break is
the newline character (the embedded corpus never contains other breaks):
the trailing newline does not open an extra empty line. -/
def pySplitlines (s : PyStr) : List PyStr :=
  if s.isEmpty then []
  else if s.getLast? == some '\n' then (pySplitChar s '\n').dropLast
  else pySplitChar s '\n'

/-- Models ('\n').join(parts). -/
def pyJoinNL (parts : List PyStr) : PyStr := List.intercalate (pstr "\n") parts

/-- Models sep.join(parts) for an arbitrary separator. -/
def pyJoin (sep : PyStr) (parts : List PyStr) : PyStr := List.intercalate sep parts

/-- Fueled worker for pySplitWs. -/
def pySplitWsGo (fuel : Nat) (s : PyStr) : List PyStr :=
  match fuel with
  | 0 => []
  | fuel + 1 =>
    let s1 := s.dropWhile pyIsWs
    match s1 with
    | [] => []
    | _ :: _ =>
      (s1.takeWhile (fun c => !pyIsWs c)) ::
        pySplitWsGo fuel (s1.dropWhile (fun c => !pyIsWs c))

/-- Models Python s.split() with no arguments: maximal runs of
non-whitespace characters. -/
def pySplitWs (s : PyStr) : List PyStr := pySplitWsGo (s.length + 1) s

/-- Index of the last occurrence of a character, the found half of Python
s.rfind(c). -/
def pyRfindChar (s : PyStr) (c : Char) : Option Nat :=
  match s.reverse.findIdx? (· == c) with
  | none => none
  | some j => some (s.length - 1 - j)

/-- Decimal digits of a natural number, fueled by the number itself. -/
def natDigitsGo (fuel n : Nat) : PyStr :=
  match fuel with
  | 0 => []
  | fuel + 1 =>
    if n < 10 then [Char.ofNat (48 + n)]
    else natDigitsGo fuel (n / 10) ++ [Char.ofNat (48 + n % 10)]

/-- Decimal representation of a natural number, as Python str(n) yields
for nonnegative n. -/
def natDigits (n : Nat) : PyStr := natDigitsGo (n + 1) n

/-- Models the Python format specifier 03d: decimal digits left-padded
with zeros to a minimum width of three. -/
def pyFormat3 (n : Nat) : PyStr :=
  let d := natDigits n
  List.replicate (3 - d.length) '0' ++ d

/-- Numeric value of a string of decimal digits, as Python int(s) on the
digit strings produced by the engine. -/
def pyParseDigits (s : PyStr) : Nat :=
  s.foldl (fun acc c => acc * 10 + (c.toNat - 48)) 0

/-- Hexadecimal digit characters used by percent encoding. -/
def hexChar (n : Nat) : Char :=
  if n < 10 then Char.ofNat (48 + n) else Char.ofNat (55 + n)

/-- Characters that urllib.parse.quote leaves unencoded with the default
safe set: ASCII letters, digits, underscore, dot, hyphen, tilde and the
path separator. -/
def pyQuoteSafe (c : Char) : Bool :=
  c.isAlpha || c.isDigit || c == '_' || c == '.' || c == '-' || c == '~' || c == '/'

/-- Models urllib.parse.quote on the ASCII contents handled by the
engine: unsafe characters become percent escapes. -/
def pyQuote (s : PyStr) : PyStr :=
  s.flatMap (fun c => if pyQuoteSafe c then [c] else ['%', hexChar (c.toNat / 16), hexChar (c.toNat % 16)])

/-- Numeric value of one hexadecimal digit character. -/
def hexVal (c : Char) : Nat :=
  if c.isDigit then c.toNat - 48
  else if c.toNat ≥ 97 then c.toNat - 87
  else c.toNat - 55

/-- Membership in the hexadecimal digit alphabet. -/
def isHexDigitChar (c : Char) : Bool :=
  c.isDigit || ('a' ≤ c && c ≤ 'f') || ('A' ≤ c && c ≤ 'F')

/-- Models urllib.parse.unquote on ASCII percent escapes. -/
def pyUnquote (s : PyStr) : PyStr :=
  match s with
  | '%' :: h1 :: h2 :: t =>
    if isHexDigitChar h1 && isHexDigitChar h2 then Char.ofNat (hexVal h1 * 16 + hexVal h2) :: pyUnquote t
    else '%' :: pyUnquote (h1 :: h2 :: t)
  | c :: t => c :: pyUnquote t
  | [] => []

/-- Models the Python lexicographic comparison s < t on strings. -/
def pyStrLt (s t : PyStr) : Bool :=
  match s, t with
  | [], [] => false
  | [], _ :: _ => true
  | _ :: _, [] => false
  | a :: s1, b :: t1 => a < b || (a == b && pyStrLt s1 t1)

/-- Truthiness of an optional string, as Python evaluates it: None and
the empty string are falsy. -/
def optTruthy : Option PyStr → Bool
  | none => false
  | some s => !s.isEmpty

/-- Scalar values of the flat YAML fragment occurring in frontmatter
blocks: booleans, strings and integers.  This models the value space
yaml.safe_load produces for the flat key-value documents the engine
reads and writes. -/
inductive YVal where
  | b (v : Bool)
  | s (v : PyStr)
  | i (v : Int)
deriving DecidableEq

/-- Frontmatter maps model Python dicts: insertion-ordered association
lists over string keys. -/
abbrev Fm := List (PyStr × YVal)

/-- Models dict.get(k): the first binding of the key, if any. -/
def fmGet (m : Fm) (k : PyStr) : Option YVal :=
  match m with
  | [] => none
  | (k1, v) :: t => if k1 == k then some v else fmGet t k

/-- Models d[k] = v on a Python dict: replaces the binding in place or
appends a new one, preserving insertion order. -/
def fmSet (m : Fm) (k : PyStr) (v : YVal) : Fm :=
  match m with
  | [] => [(k, v)]
  | (k1, v1) :: t => if k1 == k then (k, v) :: t else (k1, v1) :: fmSet t k v

/-- Models (k in d) on a Python dict. -/
def fmContains (m : Fm) (k : PyStr) : Bool := (fmGet m k).isSome

/-- Models dict.update(other): folds fmSet over the updates. -/
def fmUpdate (m : Fm) (updates : Fm) : Fm :=
  updates.foldl (fun acc kv => fmSet acc kv.1 kv.2) m

/-- Parses one scalar of the flat YAML fragment: true, false, a quoted
string, or a plain string. -/
def parseYamlValue (v : PyStr) : YVal :=
  if v == pstr "true" then .b true
  else if v == pstr "false" then .b false
  else if v.length ≥ 2 && v.head? == some '"' && v.getLast? == some '"' then
    .s (v.drop 1).dropLast
  else .s v

/-- Models yaml.safe_load on the flat key-value frontmatter documents the
engine reads: one binding per nonempty line of the form key plus colon
plus value. -/
def parseFrontmatterStr (s : PyStr) : Fm :=
  (pySplitlines s).foldl
    (fun acc line =>
      let line := pyStripWs line
      if line.isEmpty then acc
      else
        match pyFindSub line [':'] with
        | none => acc
        | some i => fmSet acc (pyStripWs (line.take i)) (parseYamlValue (pyStripWs (line.drop (i + 1)))))
    []

/-- Renders one scalar the way yaml.safe_dump renders the plain scalars
occurring in the engine (booleans lowercase, strings bare). -/
def dumpYamlValue : YVal → PyStr
  | .b true => pstr "true"
  | .b false => pstr "false"
  | .s v => v
  | .i n => if n < 0 then '-' :: natDigits n.natAbs else natDigits n.natAbs

/-- Models DestinationFile.frontmatter_dict_to_str: yaml.safe_dump with
sort_keys switched off followed by strip, i.e. one key-value line per
binding in insertion order, no trailing newline, empty output for the
empty dict. -/
def frontmatterDictToStr (m : Fm) : PyStr :=
  pyJoinNL (m.map (fun kv => kv.1 ++ pstr ": " ++ dumpYamlValue kv.2))

/-- Models DestinationFile.frontmatter_str_to_dict (yaml.safe_load with
the empty dict as fallback). -/
def frontmatterStrToDict (s : PyStr) : Fm := parseFrontmatterStr s

/-- The filesystem: an association list from paths to file contents,
kept in creation order.  It stands for the portion of the disk the
engine reads and writes. -/
abbrev FS := List (PyStr × PyStr)

/-- Reads a file, as open(path).read() restricted to the success case. -/
def fsRead (fs : FS) (p : PyStr) : Option PyStr :=
  match fs with
  | [] => none
  | (p1, c) :: t => if p1 == p then some c else fsRead t p

/-- Models os.path.exists on the embedded filesystem. -/
def fsExists (fs : FS) (p : PyStr) : Bool := (fsRead fs p).isSome

/-- Writes a file, as open(path, w).write: truncates an existing entry in
place or creates a new one. -/
def fsWrite (fs : FS) (p c : PyStr) : FS :=
  match fs with
  | [] => [(p, c)]
  | (p1, c1) :: t => if p1 == p then (p, c) :: t else (p1, c1) :: fsWrite t p c

/-- Models os.remove. -/
def fsRemove (fs : FS) (p : PyStr) : FS :=
  fs.filter (fun e => !(e.1 == p))

/-- Models os.path.join for the relative path segments the engine
composes. -/
def pathJoin (a b : PyStr) : PyStr := a ++ ['/'] ++ b

/-- Models os.path.basename. -/
def pathBase (p : PyStr) : PyStr := (pySplitChar p '/').getLastD []

/-- Models file_utils.get_markdown_files and the os.walk loops: the
markdown files lying under a directory, in filesystem order, which
stands for the traversal order of the walk. -/
def fsWalkMd (fs : FS) (dir : PyStr) : List PyStr :=
  fs.filterMap (fun e =>
    if pyStartsWith e.1 (dir ++ ['/']) && pyEndsWith e.1 (pstr ".md") then some e.1 else none)

/-- Models file_utils.get_book_title_from_path: the basename with every
occurrence of .md removed. -/
def getBookTitleFromPath (p : PyStr) : PyStr :=
  pyReplaceSub (pathBase p) (pstr ".md") []

/-- Models file_utils.get_vault_name_from_path: the basename of the
normalized vault path (the embedded vault paths carry no trailing
separator, so normalization is the identity). -/
def getVaultNameFromPath (p : PyStr) : PyStr := pathBase p

/-- Models file_utils.split_frontmatter: the leading YAML block between
two triple-dash markers, if present. -/
def splitFrontmatter (content : PyStr) : Option PyStr × PyStr :=
  if pyStartsWith content (pstr "---") then
    let parts := pySplitSub content (pstr "---") 2
    match parts with
    | _ :: fm :: body :: _ => (some (pyStripWs fm), pyLstripSet (pstr "\n") body)
    | _ => (none, content)
  else (none, content)

/-- Models file_utils.has_sync_quotes_flag, reading the file and testing
the frontmatter for the literal flag text. -/
def hasSyncQuotesFlag (fs : FS) (p : PyStr) : Bool :=
  match fsRead fs p with
  | none => false
  | some content =>
    match splitFrontmatter content with
    | (some fm, _) => pyContainsSub fm (pstr "sync_quotes: true")
    | (none, _) => false

/-- Exceptions that can escape the embedded engine: the wrong-arity
constructor call in services/sync.py raises TypeError, the access to the
missing DestinationVault.source_vault attribute raises AttributeError,
and the guard in _save_destination_quote raises ValueError. -/
inductive PyErr where
  | typeError
  | attributeError
  | valueError
deriving DecidableEq

/-- Models BLOCK_ID_PATTERN matching on one stripped line
(quote_parser.py line 23 and SourceFile.BLOCK_ID_PATTERN): the string
must be the caret, the word Quote, and exactly three decimal digits. -/
def isBlockIdStr (s : PyStr) : Bool :=
  match s with
  | '^' :: 'Q' :: 'u' :: 'o' :: 't' :: 'e' :: d1 :: d2 :: d3 :: [] =>
    d1.isDigit && d2.isDigit && d3.isDigit
  | _ => false

/-- Numeric suffix of a block identifier string: the digits after the
six-character marker. -/
def blockIdNum (s : PyStr) : Nat := pyParseDigits (s.drop 6)

/-- Models SourceFile.get_next_block_id: the highest three-digit
identifier in the document plus one, or the first identifier when none
exist. -/
def getNextBlockId (markdown : PyStr) : PyStr :=
  let existing := (pySplitlines markdown).filterMap (fun line =>
    let t := pyStripWs line
    if isBlockIdStr t then some (blockIdNum t) else none)
  match existing with
  | [] => pstr "^Quote001"
  | h :: t => pstr "^Quote" ++ pyFormat3 ((t.foldl Nat.max h) + 1)

/-- Worker for validateBlockIdsFromContent, carrying the set of
identifiers already seen and the zero-based line counter.  The Python
messages wrap the offending token in single quotation marks; those two
marks are elided from the embedded message text. -/
def validateGo (seen : List PyStr) (n : Nat) : List PyStr → List PyStr
  | [] => []
  | line :: rest =>
    let t := pyStripWs line
    if isBlockIdStr t then
      if seen.contains t then
        (pstr "Duplicate block ID " ++ t ++ pstr " found at line " ++ natDigits (n + 1)) ::
          validateGo seen (n + 1) rest
      else validateGo (t :: seen) (n + 1) rest
    else if pyStartsWith t (pstr "^Quote") then
      (pstr "Invalid block ID format " ++ t ++ pstr " at line " ++ natDigits (n + 1) ++
        pstr ". Expected format: ^QuoteNNN (where NNN is 3 digits)") ::
        validateGo seen (n + 1) rest
    else validateGo seen (n + 1) rest

/-- Models SourceFile.validate_block_ids_from_content: one error per
duplicate identifier occurrence and one per identifier-looking token that
does not match the pattern. -/
def validateBlockIdsFromContent (markdown : PyStr) : List PyStr :=
  validateGo [] 0 (pySplitlines markdown)

/-- Test applied by the engine to decide whether a line belongs to a
blockquote: the stripped line opens with the quote marker. -/
def isBlockquoteLine (line : PyStr) : Bool := pyStartsWith (pyStripWs line) (pstr ">")

/-- Content of one blockquote line as the engine collects it: the quote
marker prefix stripped on the left, whitespace stripped on the right. -/
def bqLineText (line : PyStr) : PyStr := pyRstripWs (pyLstripSet (pstr "> ") line)

/-- Worker for extractBlockquotesWithIds; the fuel bounds the number of
loop iterations and is always sufficient at the call site. -/
def extractGo (fuel : Nat) (lines : List PyStr) : List (PyStr × Option PyStr) :=
  match fuel with
  | 0 => []
  | fuel + 1 =>
    match lines with
    | [] => []
    | l :: rest =>
      if isBlockquoteLine l then
        let run := (l :: rest).takeWhile isBlockquoteLine
        let rest2 := (l :: rest).dropWhile isBlockquoteLine
        let qtext := pyStripWs (pyJoinNL (run.map bqLineText))
        match rest2 with
        | b :: rest3 =>
          if isBlockIdStr (pyStripWs b) then (qtext, some (pyStripWs b)) :: extractGo fuel rest3
          else (qtext, none) :: extractGo fuel rest2
        | [] => [(qtext, none)]
      else extractGo fuel rest

/-- Models SourceFile.extract_blockquotes_with_ids: maximal runs of
quote-marked lines, each paired with the identifier on the immediately
following line when that line matches the pattern. -/
def extractBlockquotesWithIds (markdown : PyStr) : List (PyStr × Option PyStr) :=
  let lines := pySplitlines markdown
  extractGo (lines.length + 1) lines

/-- Models models/quote.py Quote: text, identifier and the three deferred
change flags.  The parser always produces string text, so the text field
is a plain string here. -/
structure PQuote where
  text : PyStr
  block_id : Option PyStr
  needs_edit : Bool := false
  needs_unwrap : Bool := false
  needs_block_id_assignment : Bool := false
deriving DecidableEq

/-- Reference to a quote held by a source file: either a plain Quote
value or an index into the arena of SourceQuote objects allocated by the
sync service.  The arena realizes Python object identity: the service
aliases SourceQuote objects between the source file and the destination
quotes, and mutations through either alias must be visible to both. -/
inductive SQRef where
  | plain (q : PQuote)
  | obj (i : Nat)
deriving DecidableEq

/-- Arena of SourceQuote objects allocated by the sync service. -/
abbrev Arena := List PQuote

/-- Dereferences a quote reference. -/
def SQRef.get (arena : Arena) : SQRef → PQuote
  | .plain q => q
  | .obj i => arena.getD i { text := [], block_id := none }

/-- Writes through a quote reference, returning the updated arena and
reference. -/
def SQRef.put (arena : Arena) (r : SQRef) (q : PQuote) : Arena × SQRef :=
  match r with
  | .plain _ => (arena, .plain q)
  | .obj i => (arena.set i q, .obj i)

/-- Models models/source_file.py SourceFile: a path and the parsed
quotes. -/
structure SFile where
  path : PyStr
  quotes : List SQRef
deriving DecidableEq

/-- Models SourceFile.from_file: parse the file at the path. -/
def SFile.fromFile (fs : FS) (path : PyStr) : SFile :=
  let content := (fsRead fs path).getD []
  { path := path,
    quotes := (extractBlockquotesWithIds content).map
      (fun tq => .plain { text := tq.1, block_id := tq.2 }) }

/-- Models the identifier increment inside assign_missing_block_ids:
strip the marker, add one, reformat with the three-digit pad. -/
def incrBlockId (cur : PyStr) : PyStr :=
  pstr "^Quote" ++ pyFormat3 (pyParseDigits (pyReplaceSub cur (pstr "^Quote") []) + 1)

/-- Models the inner while loop of assign_missing_block_ids, which
increments the candidate identifier until it is not in the used set.  The
fuel is one more than the size of the used set, which always suffices
(see skipUsedIds_not_mem). -/
def skipUsedIds (fuel : Nat) (cur : PyStr) (used : List PyStr) : PyStr :=
  match fuel with
  | 0 => cur
  | fuel + 1 => if used.contains cur then skipUsedIds fuel (incrBlockId cur) used else cur

/-- State of the assignment fold: arena, rebuilt quote list, used
identifier set, next candidate, count of identifiers added. -/
structure AssignSt where
  arena : Arena
  quotes : List SQRef
  used : List PyStr
  next : PyStr
  count : Nat

/-- One iteration of the assignment loop of assign_missing_block_ids:
a quote with truthy text and no truthy identifier receives the next free
identifier and its deferred-write flag; the candidate and used set
advance. -/
def assignStep (st : AssignSt) (r : SQRef) : AssignSt :=
  let q := r.get st.arena
  if !optTruthy q.block_id && !q.text.isEmpty then
    let nid := skipUsedIds (st.used.length + 1) st.next st.used
    let arr := SQRef.put st.arena r
      { q with block_id := some nid, needs_block_id_assignment := true }
    { arena := arr.1, quotes := st.quotes ++ [arr.2], used := st.used ++ [nid],
      next := incrBlockId nid, count := st.count + 1 }
  else { st with quotes := st.quotes ++ [r] }

/-- Models SourceFile.assign_missing_block_ids: reads the file once for
the next-identifier seed, then walks the quotes in order, assigning a
fresh identifier (skipping used ones) to every quote that has truthy text
and no truthy identifier; only flags are set, writing is deferred to
save. -/
def assignMissingBlockIds (fs : FS) (arena : Arena) (sf : SFile) : Arena × SFile × Nat :=
  let content := (fsRead fs sf.path).getD []
  let next0 := getNextBlockId content
  let used0 : List PyStr := sf.quotes.filterMap (fun r =>
    match (r.get arena).block_id with
    | some s => if s.isEmpty then none else some s
    | none => none)
  let fin := sf.quotes.foldl assignStep
    { arena := arena, quotes := [], used := used0, next := next0, count := 0 }
  (fin.arena, { sf with quotes := fin.quotes }, fin.count)

/-- First index past the run of blockquote lines starting at index i. -/
def runEnd (all : List PyStr) (i : Nat) : Nat :=
  i + ((all.drop i).takeWhile isBlockquoteLine).length

/-- Collected texts of the blockquote run starting at index i, as
_collect_blockquote_lines produces them. -/
def runTexts (all : List PyStr) (i : Nat) : List PyStr :=
  ((all.drop i).takeWhile isBlockquoteLine).map bqLineText

/-- Worker for SourceFile._find_blockquote_with_id. -/
def findBQWithIdGo (fuel : Nat) (all : List PyStr) (i : Nat) (bid : PyStr) : Option (Nat × Nat) :=
  match fuel with
  | 0 => none
  | fuel + 1 =>
    if i < all.length then
      if isBlockquoteLine (all.getD i []) then
        let j := runEnd all i
        if j < all.length && pyStripWs (all.getD j []) == bid then some (i, j)
        else findBQWithIdGo fuel all (j + 1) bid
      else findBQWithIdGo fuel all (i + 1) bid
    else none

/-- Models SourceFile._find_blockquote_with_id: the first blockquote run
immediately followed by the given identifier line, as a pair of the run
start and the identifier line index. -/
def findBQWithId (all : List PyStr) (bid : PyStr) : Option (Nat × Nat) :=
  findBQWithIdGo (all.length + 1) all 0 bid

/-- Models SourceFile.overwrite_quote_in_source: replace the blockquote
carrying the identifier with the reformatted new text, keeping the
identifier line; no write happens when the file is absent, the identifier
is not found, the formatted text is unchanged, or dry run is on.  Returns
the filesystem and the reported update flag. -/
def overwriteQuoteInSource (fs : FS) (path bid newText : PyStr) (dry : Bool) : FS × Bool :=
  match fsRead fs path with
  | none => (fs, false)
  | some content =>
    let lines := pySplitlines content
    match findBQWithId lines bid with
    | none => (fs, false)
    | some se =>
      let formatted := (pySplitChar newText '\n').map (fun l => pstr "> " ++ l)
      let old := (lines.drop se.1).take (se.2 - se.1)
      if old == formatted then (fs, false)
      else
        let newLines := lines.take se.1 ++ formatted ++ [bid] ++ lines.drop (se.2 + 1)
        ((if dry then fs else fsWrite fs path (pyJoinNL newLines)), true)

/-- Worker for unwrapQuoteInSource, accumulating output lines. -/
def unwrapGo (fuel : Nat) (all : List PyStr) (i : Nat) (bid : PyStr)
    (acc : List PyStr) (modified : Bool) : List PyStr × Bool :=
  match fuel with
  | 0 => (acc, modified)
  | fuel + 1 =>
    if i < all.length then
      let line := all.getD i []
      if isBlockquoteLine line then
        let j := runEnd all i
        if j < all.length && pyStripWs (all.getD j []) == bid then
          unwrapGo fuel all (j + 1) bid
            (acc ++ [['"'] ++ pyJoinNL (runTexts all i) ++ ['"']]) true
        else unwrapGo fuel all j bid (acc ++ (all.drop i).take (j - i)) modified
      else unwrapGo fuel all (i + 1) bid (acc ++ [line]) modified
    else (acc, modified)

/-- Models SourceFile.unwrap_quote_in_source: the blockquote carrying the
identifier is replaced by its text wrapped in double quotation marks on a
single entry, and the identifier line is dropped; all other lines pass
through unchanged. -/
def unwrapQuoteInSource (fs : FS) (path bid : PyStr) (dry : Bool) : FS × Bool :=
  match fsRead fs path with
  | none => (fs, false)
  | some content =>
    let lines := pySplitlines content
    let res := unwrapGo (lines.length + 1) lines 0 bid [] false
    ((if res.2 && !dry then fsWrite fs path (pyJoinNL res.1) else fs), res.2)

/-- Worker for writeBlockIdToFile. -/
def writeBlockIdGo (fuel : Nat) (fs : FS) (path : PyStr) (all : List PyStr) (i : Nat)
    (target : PyStr) (bid : PyStr) (dry : Bool) : FS :=
  match fuel with
  | 0 => fs
  | fuel + 1 =>
    if i < all.length then
      if isBlockquoteLine (all.getD i []) then
        let j := runEnd all i
        let cur := pyStripWs (pyJoinNL (runTexts all i))
        if cur == target then
          if j < all.length && isBlockIdStr (pyStripWs (all.getD j [])) then fs
          else if dry then fs
          else fsWrite fs path (pyJoinNL (all.take j ++ [bid] ++ all.drop j))
        else writeBlockIdGo fuel fs path all j target bid dry
      else writeBlockIdGo fuel fs path all (i + 1) target bid dry
    else fs

/-- Models SourceFile._write_block_id_to_file: find the first blockquote
whose collected text equals the text of the quote and insert the assigned
identifier after it; if the line after that blockquote already carries
any identifier the method returns without writing anything (which is what
silently drops the identifier of a later quote with duplicated text). -/
def writeBlockIdToFile (fs : FS) (path : PyStr) (q : PQuote) (dry : Bool) : FS :=
  if !optTruthy q.block_id then fs
  else
    match fsRead fs path with
    | none => fs
    | some content =>
      let lines := pySplitlines content
      writeBlockIdGo (lines.length + 1) fs path lines 0 (pyStripWs q.text)
        (q.block_id.getD []) dry

/-- Models SourceFile.save: walk the quotes in order and, for each set
flag, perform the deferred in-place file update, then clear the flag. -/
def SFile.save (fs : FS) (arena : Arena) (sf : SFile) (dry : Bool) : FS × Arena × SFile :=
  let fin := sf.quotes.foldl
    (fun (st : FS × Arena × List SQRef) (r : SQRef) =>
      let (fs0, ar0, acc) := st
      let q := r.get ar0
      let p1 :=
        if q.needs_edit then
          (match q.block_id with
            | some bid => (overwriteQuoteInSource fs0 sf.path bid q.text dry).1
            | none => fs0,
           { q with needs_edit := false })
        else (fs0, q)
      let p2 :=
        if p1.2.needs_unwrap then
          (match p1.2.block_id with
            | some bid => (unwrapQuoteInSource p1.1 sf.path bid dry).1
            | none => p1.1,
           { p1.2 with needs_unwrap := false })
        else p1
      let p3 :=
        if p2.2.needs_block_id_assignment then
          (writeBlockIdToFile p2.1 sf.path p2.2 dry,
           { p2.2 with needs_block_id_assignment := false })
        else p2
      let ar2r2 := SQRef.put ar0 r p3.2
      (p3.1, ar2r2.1, acc ++ [ar2r2.2]))
    (fs, arena, ([] : List SQRef))
  (fin.1, fin.2.1, { sf with quotes := fin.2.2 })

/-- Modelled from the spec: the package module defining the engine
version constant is absent from src (every other module imports VERSION
from it); section 4.5 of the spec fixes the migration pipeline at the
V0.3 step, so the current version is V0.3. -/
def VERSION : PyStr := pstr "V0.3"

/-- Static link text appended to every mirror, from
transformations/v0_2_add_random_note_link.py. -/
def RANDOM_NOTE_LINK : PyStr :=
  pstr "[Random Note](obsidian://adv-uri?vault=ReferenceQuotes&commandid=random-note)"

/-- Attempts the source-path pattern at the head of the string: the open
marker, a nonempty vault segment up to the ampersand, the file key, and a
nonempty capture stopping before percent, hash or closing parenthesis. -/
def sourcePathAt (s : PyStr) : Option PyStr :=
  let marker := pstr "(obsidian://open?vault="
  if pyStartsWith s marker then
    let rest := s.drop marker.length
    let vp := rest.takeWhile (fun c => !(c == '&'))
    if vp.isEmpty then none
    else
      let rest2 := rest.drop vp.length
      if pyStartsWith rest2 (pstr "&file=") then
        let cap := (rest2.drop 6).takeWhile (fun c => !(c == '%' || c == '#' || c == ')'))
        if cap.isEmpty then none else some cap
      else none
  else none

/-- Worker scanning every start position, as re.search does. -/
def extractSourcePathGo : PyStr → Option PyStr
  | [] => none
  | c :: t =>
    match sourcePathAt (c :: t) with
    | some cap => some cap
    | none => extractSourcePathGo t

/-- Models DestinationFile.extract_source_path_from_content: the first
match of the open-URI pattern, percent-decoded, or the empty string. -/
def extractSourcePath (content : PyStr) : PyStr :=
  match extractSourcePathGo content with
  | some cap => pyUnquote cap
  | none => []

/-- Worker for extractQuoteTextFromContent; stops at the first
non-blockquote line that opens the source label. -/
def extractQuoteTextGo : List PyStr → List PyStr
  | [] => []
  | line :: rest =>
    if isBlockquoteLine line then bqLineText line :: extractQuoteTextGo rest
    else if pyStartsWith (pyStripWs line) (pstr "**Source:") then []
    else extractQuoteTextGo rest

/-- Models DestinationFile.extract_quote_text_from_content. -/
def extractQuoteTextFromContent (content : PyStr) : PyStr :=
  let qls := extractQuoteTextGo (pySplitChar content '\n')
  if qls.isEmpty then [] else pyJoinNL qls

/-- Models DestinationFile.extract_block_id_from_filename: the digits
between the Quote marker and the following separator, re-prefixed with
the caret, or the empty string. -/
def extractBlockIdFromFilename (filename : PyStr) : PyStr :=
  if pyContainsSub filename (pstr " - Quote") then
    let parts := pySplitSub filename (pstr " - Quote") (filename.length + 1)
    match parts with
    | _ :: p1 :: _ => pstr "^Quote" ++ (pySplitSub p1 (pstr " - ") (p1.length + 1)).headD []
    | _ => []
  else []

/-- Models os.path.relpath for the one shape the engine feeds it: a path
below the given root. -/
def relPathModel (p root : PyStr) : PyStr :=
  if pyStartsWith p (root ++ ['/']) then p.drop (root.length + 1) else p

/-- Models DestinationFile.create_obsidian_uri. -/
def createObsidianUri (sourceFile bid vault vaultRoot : PyStr) : PyStr :=
  let sf := if pyEndsWith sourceFile (pstr ".md") then sourceFile.take (sourceFile.length - 3)
            else sourceFile
  let rel := if vaultRoot.isEmpty then sf else relPathModel sf vaultRoot
  pstr "obsidian://open?vault=" ++ vault ++ pstr "&file=" ++ pyQuote rel ++
    pstr "%23" ++ pyQuote bid

/-- Models DestinationFile._truncate_words_to_length: texts within the
limit pass through; longer texts are cut at the limit and then backed up
to the last space when one occurs at a positive index. -/
def truncateWordsToLength (text : PyStr) (maxLength : Nat) : PyStr :=
  if text.length ≤ maxLength then text
  else
    let truncated := text.take maxLength
    match pyRfindChar truncated ' ' with
    | some i => if i > 0 then truncated.take i else truncated
    | none => truncated

/-- Collapses runs of hyphens to a single hyphen, as the regular
expression substitution in _clean_filename_text does. -/
def collapseDashes : PyStr → PyStr
  | [] => []
  | [c] => [c]
  | c1 :: c2 :: rest =>
    if c1 == '-' && c2 == '-' then collapseDashes (c2 :: rest)
    else c1 :: collapseDashes (c2 :: rest)

/-- Models DestinationFile._clean_filename_text: path-unsafe characters
become hyphens, hyphen runs collapse, and leading or trailing hyphens and
spaces are stripped. -/
def cleanFilenameText (text : PyStr) : PyStr :=
  let repl := text.map (fun c => if c == '\\' || c == '/' || c == ':' then '-' else c)
  pyStripSet (pstr "- ") (collapseDashes repl)

/-- Models DestinationFile.create_quote_filename. -/
def createQuoteFilename (bookTitle bid quoteText : PyStr) : PyStr :=
  let cleanBid := pyLstripSet (pstr "^") bid
  let cleanText := pyStripWs quoteText
  let words := (pySplitWs cleanText).take 5
  let firstWords := pyJoin (pstr " ") words
  let firstWords2 := truncateWordsToLength firstWords 30
  let firstWords3 := cleanFilenameText firstWords2
  bookTitle ++ pstr " - " ++ cleanBid ++ pstr " - " ++ firstWords3 ++ pstr ".md"

/-- Models DestinationFile._format_quote_text. -/
def formatQuoteText (t : PyStr) : PyStr :=
  pyJoinNL ((pySplitChar t '\n').map (fun l => pstr "> " ++ l))

/-- Models DestinationFile._create_quote_content_template. -/
def createQuoteContentTemplate (quoteText sourceFile bid fm vaultName vaultRoot : PyStr) : PyStr :=
  let uri := createObsidianUri sourceFile bid vaultName vaultRoot
  let linkText := pyReplaceSub (pathBase sourceFile) (pstr ".md") []
  pstr "---\n" ++ fm ++ pstr "\n---\n\n" ++ formatQuoteText quoteText ++
    pstr "\n\n**Source:** [" ++ linkText ++ pstr "](" ++ uri ++ pstr ")\n\n" ++
    RANDOM_NOTE_LINK ++ pstr "\n"

/-- Models DestinationFile.read_quote_file_content by way of
split_frontmatter_from_file: both components are absent when the read
fails. -/
def readQuoteFileContent (fs : FS) (path : PyStr) : Option PyStr × Option PyStr :=
  match fsRead fs path with
  | none => (none, none)
  | some c =>
    let sp := splitFrontmatter c
    (sp.1, some sp.2)

/-- Models models/destination_file.py DestinationFile.  The Python object
stores a reference to its DestinationVault; the only observable effect of
that reference inside the verified flows is the attribute error raised by
save, so the embedding keeps a flag recording whether the reference is
set. -/
structure DFile where
  frontmatter : Fm
  quote : PQuote
  path : Option PyStr
  marked_for_deletion : Bool := false
  needs_update : Bool := false
  is_new : Bool := false
  has_destination_vault : Bool := false
  filename : Option PyStr := none
  source_path : Option PyStr := none
deriving DecidableEq

/-- Models the DestinationFile constructor: the filename is derived from
the path, and the source path is extracted from the file when it can be
read (the surrounding try block turns a failed read into an absent source
path). -/
def DFile.init (fs : FS) (fm : Fm) (q : PQuote) (path : Option PyStr)
    (marked needsUpd isNew hasDV : Bool) : DFile :=
  let sp := match path with
    | none => none
    | some p =>
      match readQuoteFileContent fs p with
      | (_, some body) => some (extractSourcePath body)
      | (_, none) => none
  { frontmatter := fm, quote := q, path := path, marked_for_deletion := marked,
    needs_update := needsUpd, is_new := isNew, has_destination_vault := hasDV,
    filename := path.map pathBase, source_path := sp }

/-- Models the is True test DestinationFile.is_edited performs on the
metadata map: only the boolean True itself passes. -/
def isEditedFm (m : Fm) : Bool := fmGet m (pstr "edited") == some (.b true)

/-- Models the is True test DestinationFile.is_marked_for_deletion
performs on the metadata map. -/
def isDeleteFm (m : Fm) : Bool := fmGet m (pstr "delete") == some (.b true)

/-- Models the DestinationFile.is_edited property. -/
def DFile.isEdited (d : DFile) : Bool := isEditedFm d.frontmatter

/-- Models the DestinationFile.is_marked_for_deletion property. -/
def DFile.isMarkedForDeletion (d : DFile) : Bool := isDeleteFm d.frontmatter

/-- Models DestinationFile.from_file. -/
def DFile.fromFile (fs : FS) (path : PyStr) (hasDV : Bool := false) : DFile :=
  let rc := readQuoteFileContent fs path
  let fm := match rc.1 with
    | some f => if f.isEmpty then [] else frontmatterStrToDict f
    | none => []
  let qt := match rc.2 with
    | none => []
    | some c => extractQuoteTextFromContent c
  let filename := pathBase path
  let bid := extractBlockIdFromFilename filename
  let obj := DFile.init fs fm { text := qt, block_id := some bid } (some path)
    false false false hasDV
  { obj with filename := some filename, source_path := rc.2.map extractSourcePath }

/-- Models the static DestinationFile.delete. -/
def dfileDelete (fs : FS) (path : PyStr) : FS :=
  if !path.isEmpty && fsExists fs path then fsRemove fs path else fs

/-- Result of an embedded operation that can raise: the filesystem state
reached when the operation returned or raised, together with the payload
or the exception. -/
abbrev PyRes (α : Type) := FS × Except PyErr α

/-- Models DestinationFile.save.  The vault name and root are read from
destination_vault.source_vault; the DestinationVault class defines no
source_vault attribute, so a set destination_vault reference raises
AttributeError at that access, after the source-file fallback and before
any write.  With no reference set the truthiness guard short-circuits,
leaving the fallback name Notes and the empty root, matching the skipped
conditionals. -/
def DFile.save (fs : FS) (d : DFile) (path : PyStr) : PyRes DFile :=
  if path.isEmpty then (fs, .error .valueError)
  else
    let fmStr := frontmatterDictToStr d.frontmatter
    let bid := d.quote.block_id.getD []
    let sourceFile0 := d.source_path.getD []
    let sourceFile :=
      if sourceFile0.isEmpty then
        match d.filename with
        | some fn =>
          if pyContainsSub fn (pstr " - Quote") then
            (pySplitSub fn (pstr " - Quote") (fn.length + 1)).headD [] ++ pstr ".md"
          else []
        | none => []
      else sourceFile0
    if d.has_destination_vault then (fs, .error .attributeError)
    else
      let content := createQuoteContentTemplate d.quote.text sourceFile bid fmStr (pstr "Notes") []
      (fsWrite fs path content, .ok { d with is_new := false, needs_update := false })

/-- Models models/destination_vault.py DestinationVault: a directory and
the loaded mirror files.  The constructor accepts only the directory;
BaseVault leaves the vault name empty. -/
structure DVault where
  directory : PyStr
  vault_name : PyStr := []
  files : List DFile
deriving DecidableEq

/-- Models DestinationVault._load_files: every markdown file under the
directory, parsed by DestinationFile.from_file with no vault reference. -/
def DVault.load (fs : FS) (dir : PyStr) : DVault :=
  { directory := dir, files := (fsWalkMd fs dir).map (fun p => DFile.fromFile fs p) }

/-- Worker for DVault.commitChanges, walking the files in order; a raise
inside a save aborts the loop with the filesystem reached so far. -/
def commitGo (fs : FS) (dry : Bool) : List DFile → PyRes (List DFile)
  | [] => (fs, .ok [])
  | d :: rest =>
    if d.marked_for_deletion then
      let fs1 := if !dry && optTruthy d.path then dfileDelete fs (d.path.getD []) else fs
      match commitGo fs1 dry rest with
      | (fs2, .ok ds) => (fs2, .ok ({ d with marked_for_deletion := false } :: ds))
      | (fs2, .error e) => (fs2, .error e)
    else if d.needs_update || d.is_new then
      if !dry && optTruthy d.path then
        match DFile.save fs d (d.path.getD []) with
        | (fs1, .ok d1) =>
          match commitGo fs1 dry rest with
          | (fs2, .ok ds) => (fs2, .ok ({ d1 with needs_update := false, is_new := false } :: ds))
          | (fs2, .error e) => (fs2, .error e)
        | (fs1, .error e) => (fs1, .error e)
      else
        match commitGo fs dry rest with
        | (fs2, .ok ds) => (fs2, .ok ({ d with needs_update := false, is_new := false } :: ds))
        | (fs2, .error e) => (fs2, .error e)
    else
      match commitGo fs dry rest with
      | (fs2, .ok ds) => (fs2, .ok (d :: ds))
      | (fs2, .error e) => (fs2, .error e)

/-- Models DestinationVault.commit_changes: delete files marked for
deletion, save new or updated files, honoring dry run. -/
def DVault.commitChanges (fs : FS) (dv : DVault) (dry : Bool) : PyRes DVault :=
  match commitGo fs dry dv.files with
  | (fs1, .ok ds) => (fs1, .ok { dv with files := ds })
  | (fs1, .error e) => (fs1, .error e)

/-- Models DestinationVault.remove_orphaned_quotes_for_source: mark every
mirror whose truthy identifier is outside the identifier set of the
source file for deletion, then commit unless dry run; returns the deleted
count alongside the new state. -/
def DVault.removeOrphanedQuotesForSource (fs : FS) (dv : DVault) (existingIds : List PyStr)
    (dry : Bool) : PyRes (DVault × Nat) :=
  let marked := dv.files.map (fun d =>
    if optTruthy d.quote.block_id && !existingIds.contains (d.quote.block_id.getD []) then
      ({ d with marked_for_deletion := true }, 1)
    else (d, 0))
  let dv1 : DVault := { dv with files := marked.map Prod.fst }
  let count := (marked.map Prod.snd).sum
  if !dry then
    match DVault.commitChanges fs dv1 false with
    | (fs1, .ok dv2) => (fs1, .ok (dv2, count))
    | (fs1, .error e) => (fs1, .error e)
  else (fs, .ok (dv1, count))

/-- Result of processing one mirror inside delete_flagged. -/
structure DelFlagStep where
  fs : FS
  dfile : DFile
  unwrapped : Nat
  errors : List PyStr

/-- Processes one mirror of delete_flagged: skip unless the delete flag
and a truthy source path are present; resolve the source file, report an
error when it does not exist; otherwise unwrap the quote carrying the
identifier in the source (saving the source unless dry run) and mark the
mirror for deletion. -/
def deleteFlaggedOne (fs : FS) (svp : PyStr) (dry : Bool) (d : DFile) : DelFlagStep :=
  if !d.isMarkedForDeletion then { fs := fs, dfile := d, unwrapped := 0, errors := [] }
  else if !optTruthy d.source_path then { fs := fs, dfile := d, unwrapped := 0, errors := [] }
  else
    let sp0 := d.source_path.getD []
    let sp := if !pyEndsWith sp0 (pstr ".md") then sp0 ++ pstr ".md" else sp0
    let sfp := if !svp.isEmpty then pathJoin svp sp else sp
    if !fsExists fs sfp then
      { fs := fs, dfile := d, unwrapped := 0,
        errors := [pstr "Could not find source file " ++ sp0 ++ pstr " in " ++ svp ++
          pstr " for quote file " ++ d.path.getD []] }
    else if !optTruthy d.quote.block_id then { fs := fs, dfile := d, unwrapped := 0, errors := [] }
    else
      let source := SFile.fromFile fs sfp
      let idx? := source.quotes.findIdx? (fun r => (r.get []).block_id == d.quote.block_id)
      match idx? with
      | none => { fs := fs, dfile := d, unwrapped := 0, errors := [] }
      | some idx =>
        let q := ((source.quotes.getD idx (.plain { text := [], block_id := none }))).get []
        let q1 : PQuote := { q with text := ['"'] ++ q.text ++ ['"'], needs_unwrap := true }
        let source1 : SFile := { source with quotes := source.quotes.set idx (.plain q1) }
        let fs1 := if !dry then (SFile.save fs [] source1 false).1 else fs
        { fs := fs1, dfile := { d with marked_for_deletion := true }, unwrapped := 1, errors := [] }

/-- Worker folding deleteFlaggedOne over the mirror list. -/
def deleteFlaggedLoop (fs : FS) (svp : PyStr) (dry : Bool) : List DFile → FS × List DFile × Nat × List PyStr
  | [] => (fs, [], 0, [])
  | d :: rest =>
    let st := deleteFlaggedOne fs svp dry d
    let r := deleteFlaggedLoop st.fs svp dry rest
    (r.1, st.dfile :: r.2.1, st.unwrapped + r.2.2.1, st.errors ++ r.2.2.2)

/-- Models DestinationVault.delete_flagged: process every mirror with the
delete flag, then commit the marked deletions unless dry run; returns the
unwrap count and the collected errors. -/
def DVault.deleteFlagged (fs : FS) (dv : DVault) (svp : PyStr) (dry : Bool) :
    PyRes (DVault × Nat × List PyStr) :=
  let r := deleteFlaggedLoop fs svp dry dv.files
  let dv1 : DVault := { dv with files := r.2.1 }
  if !dry then
    match DVault.commitChanges r.1 dv1 false with
    | (fs1, .ok dv2) => (fs1, .ok (dv2, r.2.2.1, r.2.2.2))
    | (fs1, .error e) => (fs1, .error e)
  else (r.1, .ok (dv1, r.2.2.1, r.2.2.2))

/-- Models models/source_vault.py SourceVault. -/
structure SVault where
  directory : PyStr
  vault_name : PyStr
  files : List SFile
deriving DecidableEq

/-- Models SourceVault._load_files: markdown files under the directory
carrying the sync flag. -/
def SVault.load (fs : FS) (dir name : PyStr) : SVault :=
  { directory := dir, vault_name := name,
    files := ((fsWalkMd fs dir).filter (hasSyncQuotesFlag fs)).map (SFile.fromFile fs) }

/-- Models SourceVault.validate_all: each file is re-read from disk and
validated; only errors are produced, nothing is written. -/
def SVault.validateAll (fs : FS) (sv : SVault) : List PyStr :=
  sv.files.flatMap (fun f => validateBlockIdsFromContent ((fsRead fs f.path).getD []))

/-- Models SourceVault.assign_block_ids_all: assign missing identifiers
in every file, in memory only. -/
def SVault.assignBlockIdsAll (fs : FS) (sv : SVault) : SVault × Nat :=
  let fin := sv.files.foldl
    (fun (st : List SFile × Nat) f =>
      let r := assignMissingBlockIds fs [] f
      (st.1 ++ [r.2.1], st.2 + r.2.2))
    ([], 0)
  ({ sv with files := fin.1 }, fin.2)

/-- Models SourceVault.commit_changes: save every source file with the
given dry-run switch. -/
def SVault.commitChanges (fs : FS) (sv : SVault) (dry : Bool) : FS × SVault :=
  let fin := sv.files.foldl
    (fun (st : FS × List SFile) f =>
      let r := SFile.save st.1 [] f dry
      (r.1, st.2 ++ [r.2.2]))
    (fs, [])
  (fin.1, { sv with files := fin.2 })

/-- Models SourceVault.save_all, which commits with dry run switched
off unconditionally. -/
def SVault.saveAll (fs : FS) (sv : SVault) : FS × SVault :=
  SVault.commitChanges fs sv false

/-- Models models/destination_quote.py DestinationQuote: text,
identifier, metadata map and the reference to the aliased SourceQuote
object, kept as an arena index. -/
structure DQ where
  text : PyStr
  block_id : Option PyStr
  frontmatter : Fm
  source_quote : Option Nat := none
deriving DecidableEq

/-- Models the DestinationQuote.is_edited property (the is True test). -/
def DQ.isEdited (q : DQ) : Bool := isEditedFm q.frontmatter

/-- Models DestinationQuote.mark_edited. -/
def DQ.markEdited (q : DQ) (v : Bool) : DQ :=
  { q with frontmatter := fmSet q.frontmatter (pstr "edited") (.b v) }

/-- Models DestinationQuote.sync_from_source: an edited quote is left
untouched unless forced; otherwise text and identifier are copied from
the source quote when they differ, and any change clears the edited
flag. -/
def DQ.syncFromSource (dq : DQ) (sq : PQuote) (force : Bool) : Bool × DQ :=
  if !force && dq.isEdited then (false, dq)
  else
    let s1 := if dq.text == sq.text then (false, dq) else (true, { dq with text := sq.text })
    let s2 := if s1.2.block_id == sq.block_id then s1
              else (true, { s1.2 with block_id := sq.block_id })
    if s2.1 then (true, s2.2.markEdited false) else s2

/-- Models DestinationQuote.sync_to_source: when the quote is edited and
linked, and its text differs from the aliased source quote, overwrite the
source text through the alias, raise its needs_edit flag, and clear the
edited flag unless dry run.  Equal texts change nothing and keep the
edited flag set. -/
def DQ.syncToSource (arena : Arena) (dq : DQ) (dry : Bool) : Bool × DQ × Arena :=
  if !dq.isEdited || dq.source_quote.isNone then (false, dq, arena)
  else
    let i := dq.source_quote.getD 0
    let sq := arena.getD i { text := [], block_id := none }
    if dq.text == sq.text then (false, dq, arena)
    else
      let arena1 := arena.set i { sq with text := dq.text, needs_edit := true }
      let dq1 := if !dry then dq.markEdited false else dq
      (true, dq1, arena1)

/-- Conversion from a DestinationQuote to the Quote shape stored inside a
DestinationFile when _save_destination_quote assigns dest_file.quote. -/
def dqToPQuote (dq : DQ) : PQuote := { text := dq.text, block_id := dq.block_id }

/-- Identifier-keyed dict of destination quotes, insertion-ordered as a
Python dict. -/
abbrev DQDict := List (PyStr × DQ)

/-- Models dict.get on the destination-quote dict. -/
def dqGet (m : DQDict) (k : PyStr) : Option DQ :=
  match m with
  | [] => none
  | (k1, v) :: t => if k1 == k then some v else dqGet t k

/-- Models dict assignment on the destination-quote dict. -/
def dqSet (m : DQDict) (k : PyStr) (v : DQ) : DQDict :=
  match m with
  | [] => [(k, v)]
  | (k1, v1) :: t => if k1 == k then (k, v) :: t else (k1, v1) :: dqSet t k v

/-- Identifier-keyed dict of source-quote arena indices. -/
abbrev SQDict := List (PyStr × Nat)

/-- Models dict.get on the source-quote dict. -/
def sqGet (m : SQDict) (k : PyStr) : Option Nat :=
  match m with
  | [] => none
  | (k1, v) :: t => if k1 == k then some v else sqGet t k

/-- Models dict assignment on the source-quote dict. -/
def sqSet (m : SQDict) (k : PyStr) (v : Nat) : SQDict :=
  match m with
  | [] => [(k, v)]
  | (k1, v1) :: t => if k1 == k then (k, v) :: t else (k1, v1) :: sqSet t k v

/-- Per-file results dict of QuoteSyncService.sync_source_file. -/
structure FileResults where
  quotes_processed : Nat := 0
  quotes_created : Nat := 0
  quotes_updated : Nat := 0
  quotes_synced_back : Nat := 0
  errors : List PyStr := []
deriving DecidableEq

/-- Models services/quote_sync.py QuoteSyncService.  The arena holds
every SourceQuote object the service allocates; it persists across the
files of one sync_all call, exactly as the Python objects do. -/
structure QSS where
  source_vault_path : PyStr
  destination_vault_path : PyStr
  source_vault_name : PyStr
  destination_vault_name : PyStr
  destination_vault : DVault
  source_quotes : SQDict
  destination_quotes : DQDict
  arena : Arena
deriving DecidableEq

/-- Models the QuoteSyncService constructor together with
_load_existing_destination_quotes: load the destination vault and
register every mirror quote that has a truthy identifier and truthy
text, copying its metadata map. -/
def QSS.init (fs : FS) (svp dvp : PyStr) : QSS :=
  let dv := DVault.load fs dvp
  let dqs := dv.files.foldl
    (fun acc df =>
      if optTruthy df.quote.block_id && !df.quote.text.isEmpty then
        dqSet acc (df.quote.block_id.getD [])
          { text := df.quote.text, block_id := df.quote.block_id,
            frontmatter := df.frontmatter, source_quote := none }
      else acc)
    []
  { source_vault_path := svp, destination_vault_path := dvp,
    source_vault_name := getVaultNameFromPath svp,
    destination_vault_name := getVaultNameFromPath dvp,
    destination_vault := dv, source_quotes := [], destination_quotes := dqs,
    arena := [] }

/-- Models QuoteSyncService._convert_source_quotes: every parsed quote
with truthy identifier and text is replaced in the source file by a
freshly allocated SourceQuote object, registered under its identifier. -/
def QSS.convertSourceQuotes (qss : QSS) (sf : SFile) : QSS × SFile :=
  let fin := sf.quotes.foldl
    (fun (st : QSS × List SQRef) r =>
      let q := r.get st.1.arena
      if optTruthy q.block_id && !q.text.isEmpty then
        let idx := st.1.arena.length
        let sq : PQuote := { text := q.text, block_id := q.block_id }
        ({ st.1 with
            arena := st.1.arena ++ [sq],
            source_quotes := sqSet st.1.source_quotes (q.block_id.getD []) idx },
         st.2 ++ [.obj idx])
      else (st.1, st.2 ++ [r]))
    (qss, [])
  (fin.1, { sf with quotes := fin.2 })

/-- Models the linking loop of sync_source_file: every destination quote
whose identifier is registered receives the reference to that SourceQuote
object. -/
def QSS.linkDestQuotes (qss : QSS) : QSS :=
  { qss with destination_quotes := qss.destination_quotes.map (fun kv =>
      match sqGet qss.source_quotes kv.1 with
      | some idx => (kv.1, { kv.2 with source_quote := some idx })
      | none => kv) }

/-- Placeholder DestinationFile used to totalize list indexing at indices
the find step has already certified. -/
def dummyDFile : DFile :=
  { frontmatter := [], quote := { text := [], block_id := none }, path := none }

/-- Models QuoteSyncService._save_destination_quote: derive the filename
from the current text, update the in-memory file at the same path when
one exists, otherwise delete a file carrying the same identifier at an
old path and create a new DestinationFile carrying the vault reference;
saving that new file raises AttributeError inside DestinationFile.save,
after the old file was already deleted from disk. -/
def QSS.saveDestinationQuote (fs : FS) (qss : QSS) (dq : DQ) (bookTitle : PyStr) :
    PyRes QSS :=
  if !optTruthy dq.block_id then (fs, .error .valueError)
  else
    let filename := createQuoteFilename bookTitle (dq.block_id.getD []) dq.text
    let qpath := pathJoin (pathJoin qss.destination_vault.directory bookTitle) filename
    let files := qss.destination_vault.files
    match files.findIdx? (fun f => f.path == some qpath) with
    | some j =>
      let df := files.getD j dummyDFile
      let df1 := { df with frontmatter := dq.frontmatter, quote := dqToPQuote dq }
      match DFile.save fs df1 qpath with
      | (fs1, .ok df2) =>
        (fs1, .ok { qss with destination_vault :=
          { qss.destination_vault with files := files.set j df2 } })
      | (fs1, .error e) => (fs1, .error e)
    | none =>
      let afterOld :=
        match files.findIdx? (fun f => f.quote.block_id == dq.block_id && !(f.path == some qpath)) with
        | some k =>
          let old := files.getD k dummyDFile
          let fs1 := if optTruthy old.path then dfileDelete fs (old.path.getD []) else fs
          (fs1, files.eraseIdx k)
        | none => (fs, files)
      let df := DFile.init afterOld.1 dq.frontmatter (dqToPQuote dq) (some qpath)
        false false false true
      let files2 := afterOld.2 ++ [df]
      let qss1 := { qss with destination_vault :=
        { qss.destination_vault with files := files2 } }
      match DFile.save afterOld.1 df qpath with
      | (fs2, .ok df2) =>
        (fs2, .ok { qss1 with destination_vault :=
          { qss1.destination_vault with files := files2.set (files2.length - 1) df2 } })
      | (fs2, .error e) => (fs2, .error e)

/-- Worker for the merge-back stage, walking the source quotes in
order. -/
def syncEditedBackGo (fs : FS) (qss : QSS) (dry : Bool) (bookTitle : PyStr) :
    List SQRef → PyRes (QSS × Nat)
  | [] => (fs, .ok (qss, 0))
  | r :: rest =>
    let q := r.get qss.arena
    if !optTruthy q.block_id then syncEditedBackGo fs qss dry bookTitle rest
    else
      match dqGet qss.destination_quotes (q.block_id.getD []) with
      | some dq =>
        if dq.isEdited then
          let res := DQ.syncToSource qss.arena dq dry
          let qss1 := { qss with
            arena := res.2.2,
            destination_quotes := dqSet qss.destination_quotes (q.block_id.getD []) res.2.1 }
          if res.1 then
            if !dry then
              match QSS.saveDestinationQuote fs qss1 res.2.1 bookTitle with
              | (fs1, .ok qss2) =>
                match syncEditedBackGo fs1 qss2 dry bookTitle rest with
                | (fs2, .ok p) => (fs2, .ok (p.1, p.2 + 1))
                | (fs2, .error e) => (fs2, .error e)
              | (fs1, .error e) => (fs1, .error e)
            else
              match syncEditedBackGo fs qss1 dry bookTitle rest with
              | (fs2, .ok p) => (fs2, .ok (p.1, p.2 + 1))
              | (fs2, .error e) => (fs2, .error e)
          else syncEditedBackGo fs qss1 dry bookTitle rest
        else syncEditedBackGo fs qss dry bookTitle rest
      | none => syncEditedBackGo fs qss dry bookTitle rest

/-- Models QuoteSyncService._sync_edited_quotes_back: for every source
quote with a truthy identifier whose destination quote is edited, sync
the edit back through the alias and, when a change was made outside dry
run, save the destination quote to persist the cleared flag. -/
def QSS.syncEditedQuotesBack (fs : FS) (qss : QSS) (sf : SFile) (dry : Bool) :
    PyRes (QSS × Nat) :=
  syncEditedBackGo fs qss dry (getBookTitleFromPath sf.path) sf.quotes

/-- Models QuoteSyncService._get_or_create_source_quote for a quote that
is not a SourceQuote object: reuse the registered object for the
identifier or allocate a fresh unregistered-in-file object. -/
def QSS.getOrCreateSourceQuote (qss : QSS) (q : PQuote) : QSS × Nat :=
  match sqGet qss.source_quotes (q.block_id.getD []) with
  | some idx => (qss, idx)
  | none =>
    let idx := qss.arena.length
    ({ qss with
       arena := qss.arena ++ [{ text := q.text, block_id := q.block_id }],
       source_quotes := sqSet qss.source_quotes (q.block_id.getD []) idx }, idx)

/-- Models QuoteSyncService._get_or_create_destination_quote.  The
add_destination_quote call on the SourceQuote relinks the destination
quote to that object; the membership guard on the reverse list never
fires inside the verified flows (each SourceQuote object receives at
most one add), so the relink is modelled unconditionally. -/
def QSS.getOrCreateDestinationQuote (qss : QSS) (sqIdx : Nat) : QSS × DQ :=
  let sq := qss.arena.getD sqIdx { text := [], block_id := none }
  let bid := sq.block_id.getD []
  match dqGet qss.destination_quotes bid with
  | some dq =>
    let dq1 := { dq with source_quote := some sqIdx }
    ({ qss with destination_quotes := dqSet qss.destination_quotes bid dq1 }, dq1)
  | none =>
    let dq : DQ :=
      { text := sq.text, block_id := some bid,
        frontmatter := [(pstr "delete", .b false), (pstr "favorite", .b false),
          (pstr "edited", .b false), (pstr "version", .s VERSION)],
        source_quote := some sqIdx }
    ({ qss with destination_quotes := dqSet qss.destination_quotes bid dq }, dq)

/-- Worker for the propagation stage, walking the source quotes in
order. -/
def syncSrcToDestGo (fs : FS) (qss : QSS) (dry : Bool) (bookTitle : PyStr) :
    List SQRef → PyRes (QSS × FileResults)
  | [] => (fs, .ok (qss, {}))
  | r :: rest =>
    let q := r.get qss.arena
    if !optTruthy q.block_id then
      match syncSrcToDestGo fs qss dry bookTitle rest with
      | (fs1, .ok p) =>
        (fs1, .ok (p.1, { p.2 with
          quotes_processed := p.2.quotes_processed + 1,
          errors := (pstr "Quote has no block ID: " ++ q.text.take 50 ++ pstr "...") :: p.2.errors }))
      | (fs1, .error e) => (fs1, .error e)
    else
      let sqr : QSS × Nat :=
        match r with
        | .obj i => (qss, i)
        | .plain pq => QSS.getOrCreateSourceQuote qss pq
      let qss1 := sqr.1
      let got := QSS.getOrCreateDestinationQuote qss1 sqr.2
      let qss2 := got.1
      let sqVal := qss2.arena.getD sqr.2 { text := [], block_id := none }
      let sfs := DQ.syncFromSource got.2 sqVal false
      let bid := sqVal.block_id.getD []
      let qss3 := { qss2 with destination_quotes := dqSet qss2.destination_quotes bid sfs.2 }
      let afterSave : PyRes QSS :=
        if sfs.1 then
          if !dry then QSS.saveDestinationQuote fs qss3 sfs.2 bookTitle
          else (fs, .ok qss3)
        else if !(qss3.destination_quotes.any (fun kv =>
            kv.2.text == sfs.2.text && kv.2.block_id == sfs.2.block_id)) then
          if !dry then QSS.saveDestinationQuote fs qss3 sfs.2 bookTitle
          else (fs, .ok qss3)
        else (fs, .ok qss3)
      let createdHere : Nat :=
        if sfs.1 then 0
        else if !(qss3.destination_quotes.any (fun kv =>
            kv.2.text == sfs.2.text && kv.2.block_id == sfs.2.block_id)) then 1
        else 0
      match afterSave with
      | (fs1, .ok qss4) =>
        match syncSrcToDestGo fs1 qss4 dry bookTitle rest with
        | (fs2, .ok p) =>
          (fs2, .ok (p.1, { p.2 with
            quotes_processed := p.2.quotes_processed + 1,
            quotes_updated := p.2.quotes_updated + (if sfs.1 then 1 else 0),
            quotes_created := p.2.quotes_created + createdHere }))
        | (fs2, .error e) => (fs2, .error e)
      | (fs1, .error e) => (fs1, .error e)

/-- Models QuoteSyncService._sync_source_to_destination: for every source
quote, find or create the destination quote, sync it from the source when
it is not locked by the edited flag, and count updates; a creation is
counted only when the fresh quote is missing from the dict values, which
never happens because _get_or_create_destination_quote has just inserted
it. -/
def QSS.syncSourceToDestination (fs : FS) (qss : QSS) (sf : SFile) (srcPath : PyStr)
    (dry : Bool) : PyRes (QSS × FileResults) :=
  syncSrcToDestGo fs qss dry (getBookTitleFromPath srcPath) sf.quotes

/-- Models QuoteSyncService.sync_source_file: parse the source file,
convert and link, merge edited quotes back, propagate source to
destination, and commit the source file and the destination vault unless
dry run. -/
def QSS.syncSourceFile (fs : FS) (qss : QSS) (path : PyStr) (dry : Bool) :
    PyRes (QSS × FileResults) :=
  let sf := SFile.fromFile fs path
  let conv := QSS.convertSourceQuotes qss sf
  let qss1 := QSS.linkDestQuotes conv.1
  match QSS.syncEditedQuotesBack fs qss1 conv.2 dry with
  | (fs1, .error e) => (fs1, .error e)
  | (fs1, .ok mb) =>
    match QSS.syncSourceToDestination fs1 mb.1 conv.2 path dry with
    | (fs2, .error e) => (fs2, .error e)
    | (fs2, .ok pr) =>
      let results : FileResults := { pr.2 with quotes_synced_back := mb.2 }
      if !dry then
        let sv := SFile.save fs2 pr.1.arena conv.2 false
        let qss2 := { pr.1 with arena := sv.2.1 }
        match DVault.commitChanges sv.1 qss2.destination_vault false with
        | (fs3, .ok dv1) => (fs3, .ok ({ qss2 with destination_vault := dv1 }, results))
        | (fs3, .error e) => (fs3, .error e)
      else (fs2, .ok (pr.1, results))

/-- Totals dict of QuoteSyncService.sync_all. -/
structure SyncAllResults where
  source_files_processed : Nat := 0
  total_quotes_processed : Nat := 0
  total_quotes_created : Nat := 0
  total_quotes_updated : Nat := 0
  total_quotes_synced_back : Nat := 0
  errors : List PyStr := []
deriving DecidableEq

/-- Worker for sync_all over the markdown file list. -/
def syncAllGo (fs : FS) (qss : QSS) (dry : Bool) : List PyStr → PyRes (QSS × SyncAllResults)
  | [] => (fs, .ok (qss, {}))
  | p :: rest =>
    if hasSyncQuotesFlag fs p then
      match QSS.syncSourceFile fs qss p dry with
      | (fs1, .error e) => (fs1, .error e)
      | (fs1, .ok fr) =>
        match syncAllGo fs1 fr.1 dry rest with
        | (fs2, .ok t) =>
          (fs2, .ok (t.1, { t.2 with
            source_files_processed := t.2.source_files_processed + 1,
            total_quotes_processed := t.2.total_quotes_processed + fr.2.quotes_processed,
            total_quotes_created := t.2.total_quotes_created + fr.2.quotes_created,
            total_quotes_updated := t.2.total_quotes_updated + fr.2.quotes_updated,
            total_quotes_synced_back := t.2.total_quotes_synced_back + fr.2.quotes_synced_back,
            errors := fr.2.errors ++ t.2.errors }))
        | (fs2, .error e) => (fs2, .error e)
    else syncAllGo fs qss dry rest

/-- Models QuoteSyncService.sync_all: process every markdown file of the
source vault carrying the sync flag, accumulating totals. -/
def QSS.syncAll (fs : FS) (qss : QSS) (dry : Bool) : PyRes (QSS × SyncAllResults) :=
  syncAllGo fs qss dry (fsWalkMd fs qss.source_vault_path)

/-- Note record passed through the metadata transformations: the
frontmatter map and the content, which in the service manager is the
quote text of the mirror. -/
abbrev TNote := Fm × PyStr

/-- Models transformations/v0_x_update_version.py. -/
def transformUpdateVersion (note : TNote) : TNote :=
  (fmSet note.1 (pstr "version") (.s VERSION), note.2)

/-- Models transformations/v0_1_add_version.py. -/
def transformV01 (note : TNote) : TNote :=
  let n1 := if !fmContains note.1 (pstr "version") then
      (fmSet note.1 (pstr "version") (.s (pstr "V0.1")), note.2)
    else note
  transformUpdateVersion n1

/-- Models transformations/v0_2_add_random_note_link.py. -/
def transformV02 (note : TNote) : TNote :=
  let content := note.2
  let n1 := if !pyContainsSub content RANDOM_NOTE_LINK then
      let c1 := if !pyEndsWith content (pstr "\n\n") then
          (if !pyEndsWith content (pstr "\n") then content ++ pstr "\n" else content) ++ pstr "\n"
        else content
      (note.1, c1 ++ RANDOM_NOTE_LINK ++ pstr "\n")
    else note
  transformUpdateVersion n1

/-- Models transformations/v0_3_add_edited_flag.py. -/
def transformV03 (note : TNote) : TNote :=
  let n1 := if !fmContains note.1 (pstr "edited") then
      (fmSet note.1 (pstr "edited") (.b false), note.2)
    else note
  transformUpdateVersion n1

/-- Models the default_transformations list of the service manager. -/
def defaultTransformations : List (PyStr × (TNote → TNote)) :=
  [(pstr "V0.1", transformV01), (pstr "V0.2", transformV02), (pstr "V0.3", transformV03)]

/-- Version read of frontmatter.get with the V0.0 default. -/
def getFileVersion (fm : Fm) : YVal := (fmGet fm (pstr "version")).getD (.s (pstr "V0.0"))

/-- Equality of a YAML value with a version string, as Python equality
between a loaded scalar and a str: only string values can be equal. -/
def yvalEqStr : YVal → PyStr → Bool
  | .s v, t => v == t
  | _, _ => false

/-- Ordering of a YAML value below a version string; Python would raise
on a non-string value, which never occurs in the verified corpora, so
non-strings simply compare unordered here. -/
def yvalLtStr : YVal → PyStr → Bool
  | .s v, t => pyStrLt v t
  | _, _ => false

/-- Models TransformationManager.apply_transformations_to_quote_file.
The changed test compares the note frontmatter against the local
frontmatter variable, but both names reference the same dict object that
the transformations mutate in place, so that comparison is always equal
and only a content change can mark the file as changed. -/
def applyTransformationsToQuoteFile (fs : FS) (path : PyStr) (dry : Bool) : PyRes Bool :=
  let dest := DFile.fromFile fs path
  let content := dest.quote.text
  let fileVersion := getFileVersion dest.frontmatter
  if yvalEqStr fileVersion VERSION then (fs, .ok false)
  else
    let note := defaultTransformations.foldl
      (fun n st => if yvalLtStr fileVersion st.1 then st.2 n else n)
      (dest.frontmatter, content)
    let changed := !(note.2 == content)
    if changed && !dry then
      let dest1 := { dest with frontmatter := note.1, quote := { dest.quote with text := note.2 } }
      match DFile.save fs dest1 path with
      | (fs1, .ok _) => (fs1, .ok true)
      | (fs1, .error e) => (fs1, .error e)
    else (fs, .ok changed)

/-- Converts the version tag to the backup folder fragment, as
create_backup_path lowercases it and replaces the dot. -/
def backupVersionFolder (version : PyStr) : PyStr :=
  pyReplaceSub (version.map Char.toLower) (pstr ".") (pstr "_")

/-- Models backup_utils.create_backup_path; the date the Python code
takes from the clock is supplied by the model configuration. -/
def createBackupPath (dvp version today : PyStr) : PyStr :=
  pathJoin (pathJoin dvp (pstr ".backup")) (backupVersionFolder version ++ ['_'] ++ today)

/-- Models backup_utils.create_backup: copy every markdown file below the
vault (skipping anything under the backup marker) into the dated backup
folder.  The dot segment os.path.relpath inserts for the top level is not
modelled; the engine never reads backups back. -/
def createBackup (fs : FS) (dvp version today : PyStr) (dry : Bool) : FS × PyStr :=
  let bp := createBackupPath dvp version today
  if dry then (fs, bp)
  else
    let fs1 := fs.foldl
      (fun acc e =>
        if pyStartsWith e.1 (dvp ++ ['/']) && pyEndsWith e.1 (pstr ".md") &&
            !pyContainsSub e.1 (pstr ".backup") then
          fsWrite acc (bp ++ ['/'] ++ e.1.drop (dvp.length + 1)) e.2
        else acc)
      fs
    (fs1, bp)

/-- Date-shaped name test for backup folders: four, two and two digits
separated by underscores, the shape strptime accepts for the backup
naming convention. -/
def isBackupDate (s : PyStr) : Bool :=
  match s with
  | [y1, y2, y3, y4, '_', m1, m2, '_', d1, d2] =>
    y1.isDigit && y2.isDigit && y3.isDigit && y4.isDigit &&
      m1.isDigit && m2.isDigit && d1.isDigit && d2.isDigit
  | _ => false

/-- Models backup_utils.cleanup_old_backups: folders under the backup
root whose trailing date parses and lies before the cutoff are removed;
zero-padded date strings compare lexicographically exactly as the parsed
dates do, and the seven-day cutoff the Python code derives from the clock
is supplied by the model configuration. -/
def cleanupOldBackups (fs : FS) (dvp cutoff : PyStr) (dry : Bool) : FS × List PyStr :=
  let root := pathJoin dvp (pstr ".backup")
  let names := (fs.filterMap (fun e =>
    if pyStartsWith e.1 (root ++ ['/']) then
      some ((pySplitChar (e.1.drop (root.length + 1)) '/').headD [])
    else none)).dedup
  let removed := names.filter (fun nm =>
    let dp := (pySplitSub nm (pstr "_") 2).getLastD []
    isBackupDate dp && pyStrLt dp cutoff)
  let fs1 := if dry then fs else
    fs.filter (fun e => !(removed.any (fun nm => pyStartsWith e.1 (pathJoin root nm ++ ['/']))))
  (fs1, removed.map (pathJoin root))

/-- Worker of apply_transformations_to_all_quotes over the file list. -/
def applyTransformAllGo (fs : FS) (dry : Bool) : List PyStr → PyRes Nat
  | [] => (fs, .ok 0)
  | p :: rest =>
    match applyTransformationsToQuoteFile fs p dry with
    | (fs1, .error e) => (fs1, .error e)
    | (fs1, .ok b) =>
      match applyTransformAllGo fs1 dry rest with
      | (fs2, .ok n) => (fs2, .ok (n + (if b then 1 else 0)))
      | (fs2, .error e) => (fs2, .error e)

/-- Models TransformationManager.apply_transformations_to_all_quotes:
count the files needing migration, take the backup and run the retention
sweep when at least one does and dry run is off, then apply the
transformations file by file. -/
def applyTransformationsToAllQuotes (fs : FS) (dvp today cutoff : PyStr) (dry : Bool) :
    PyRes Nat :=
  let quoteFiles := fsWalkMd fs dvp
  let needing := (quoteFiles.filter (fun p =>
    !(yvalEqStr (getFileVersion (DFile.fromFile fs p).frontmatter) VERSION))).length
  let fs1 := if needing > 0 && !dry then
      let b := createBackup fs dvp VERSION today false
      (cleanupOldBackups b.1 dvp cutoff false).1
    else fs
  applyTransformAllGo fs1 dry quoteFiles

/-- Configuration handed to sync_vaults: the two vault paths from the
config dict, plus the date and retention cutoff that stand for the clock
readings of the backup utilities. -/
structure Config where
  source_vault_path : PyStr
  destination_vault_path : PyStr
  today : PyStr := pstr "2026_10_12"
  cutoff : PyStr := pstr "2026_10_05"

/-- Results dict of services/sync.py sync_vaults. -/
structure SyncResults where
  source_files_processed : Nat := 0
  total_quotes_processed : Nat := 0
  total_quotes_created : Nat := 0
  total_quotes_updated : Nat := 0
  total_block_ids_added : Nat := 0
  total_quotes_deleted : Nat := 0
  total_quotes_unwrapped : Nat := 0
  total_edited_quotes_synced : Nat := 0
  errors : List PyStr := []
deriving DecidableEq

/-- Step 1 of sync_vaults (services/sync.py lines 41 to 46): load the
source vault, validate, assign missing identifiers, and then call
save_all, which commits with dry run unconditionally off — so this step
writes to disk even when the pass runs in dry-run mode. -/
def syncVaultsStep1 (fs : FS) (svp svn : PyStr) : FS × SVault × List PyStr × Nat :=
  let sv := SVault.load fs svp svn
  let errors := SVault.validateAll fs sv
  let asg := SVault.assignBlockIdsAll fs sv
  let saved := SVault.saveAll fs asg.1
  (saved.1, saved.2, errors, asg.2)

/-- Models services/sync.py sync_vaults, the full synchronization pass:
step 0 applies the metadata transformations, step 1 validates and
assigns identifiers and saves the source vault (ignoring dry run), step
2 runs the QuoteSyncService, and step 3 constructs
DestinationVault(destination_vault_path, destination_vault_name,
source_vault) at line 61 — a call with three arguments to a constructor
accepting only the directory, which raises TypeError before
delete_flagged can run, so the pass never returns its results dict. -/
def syncVaults (cfg : Config) (dry : Bool) (fs : FS) : PyRes SyncResults :=
  let svp := cfg.source_vault_path
  let dvp := cfg.destination_vault_path
  let svn := getVaultNameFromPath svp
  match applyTransformationsToAllQuotes fs dvp cfg.today cfg.cutoff dry with
  | (fs0, .error e) => (fs0, .error e)
  | (fs0, .ok _filesUpdated) =>
    let st1 := syncVaultsStep1 fs0 svp svn
    let qss := QSS.init st1.1 svp dvp
    match QSS.syncAll st1.1 qss dry with
    | (fs2, .error e) => (fs2, .error e)
    | (fs2, .ok _sr) => (fs2, .error .typeError)

/-! Concrete corpora used to settle the claims, and the spec-side helper
functions the theorem statements quantify with. -/

/-- Canonical identifier string for a numeric suffix. -/
def canonicalId (n : Nat) : PyStr := pstr "^Quote" ++ pyFormat3 n

/-- Identifiers freshly assigned by one assignment run: the result
identifiers at the positions that previously had no truthy identifier but
truthy text.  Both quote lists are read outside any arena, matching the
step-1 state where every quote is a plain value. -/
def newAssigned (orig res : List SQRef) : List PyStr :=
  (orig.zip res).filterMap (fun pr =>
    if !optTruthy ((SQRef.get [] pr.1).block_id) && !(SQRef.get [] pr.1).text.isEmpty then
      (SQRef.get [] pr.2).block_id
    else none)

/-- Stripped lines of a document, the view validation works on. -/
def strippedLines (md : PyStr) : List PyStr := (pySplitlines md).map pyStripWs

/-- Valid identifier lines of a document. -/
def validIdLines (md : PyStr) : List PyStr := (strippedLines md).filter isBlockIdStr

/-- Malformed identifier-looking lines of a document: the marker is
present but the pattern does not match. -/
def malformedIdLines (md : PyStr) : List PyStr :=
  (strippedLines md).filter (fun t => !isBlockIdStr t && pyStartsWith t (pstr "^Quote"))

/-- Word segment of the derived mirror filename: at most five words of
the trimmed text, truncated to thirty characters and cleaned. -/
def quoteFilenameWordSegment (quoteText : PyStr) : PyStr :=
  cleanFilenameText
    (truncateWordsToLength (pyJoin (pstr " ") ((pySplitWs (pyStripWs quoteText)).take 5)) 30)

/-- Configuration shared by the concrete corpora: the source vault lives
under S, the mirror vault under D. -/
def cfgSD : Config := { source_vault_path := pstr "S", destination_vault_path := pstr "D" }

/-- Corpus for claim C1: one syncable source document with one quotation
that has no identifier yet, no mirrors. -/
def srcC1 : PyStr := pstr "---\nsync_quotes: true\n---\n\n> Hello\n"

/-- Filesystem for claim C1. -/
def fsC1 : FS := [(pstr "S/b.md", srcC1)]

/-- Source content after the dry-run pass of claim C1: the identifier was
written into the file although dry run was requested. -/
def srcC1After : PyStr := pstr "---\nsync_quotes: true\n---\n\n> Hello\n^Quote001"

/-- Source document for claim C2: quotation text A under identifier 001. -/
def srcC2 : PyStr := pstr "---\nsync_quotes: true\n---\n\n> A\n^Quote001\n"

/-- Mirror for claim C2: edited, text B, carried by a file whose name
still derives from the earlier text, with the backlink to the source. -/
def mirC2 : PyStr :=
  pstr "---\ndelete: false\nfavorite: false\nedited: true\nversion: V0.3\n---\n\n> B\n\n**Source:** [b](obsidian://open?vault=Notes&file=b%23%5EQuote001)\n\n" ++
    RANDOM_NOTE_LINK ++ pstr "\n"

/-- Path of the claim C2 mirror file. -/
def mirC2Path : PyStr := pstr "D/b/b - Quote001 - Old.md"

/-- Filesystem for claim C2. -/
def fsC2 : FS := [(pstr "S/b.md", srcC2), (mirC2Path, mirC2)]

/-- Corpus for claim C3: one syncable source document holding two
quotations with identical text and no identifiers. -/
def srcC3 : PyStr := pstr "---\nsync_quotes: true\n---\n\n> dup\n\n> dup\n"

/-- Filesystem for claim C3. -/
def fsC3 : FS := [(pstr "S/b.md", srcC3)]

/-- Source content reached after the first pass of claim C3: only the
first duplicate received its identifier line; the second assignment was
silently dropped by _write_block_id_to_file. -/
def srcC3After : PyStr := pstr "---\nsync_quotes: true\n---\n\n> dup\n^Quote001\n\n> dup"

/-- Source document for claim C4. -/
def srcC4 : PyStr := pstr "---\nsync_quotes: true\n---\n\n> A\n^Quote001\n"

/-- Mirror for claim C4: flagged for deletion, matching text and
filename, with the backlink to the source. -/
def mirC4 : PyStr :=
  pstr "---\ndelete: true\nfavorite: false\nedited: false\nversion: V0.3\n---\n\n> A\n\n**Source:** [b](obsidian://open?vault=Notes&file=b%23%5EQuote001)\n\n" ++
    RANDOM_NOTE_LINK ++ pstr "\n"

/-- Path of the claim C4 mirror file. -/
def mirC4Path : PyStr := pstr "D/b/b - Quote001 - A.md"

/-- Filesystem for claim C4. -/
def fsC4 : FS := [(pstr "S/b.md", srcC4), (mirC4Path, mirC4)]

/-- Source content after delete_flagged unwraps the claim C4 quotation:
an untracked quoted-string literal, no identifier line. -/
def srcC4After : PyStr := pstr "---\nsync_quotes: true\n---\n\n\"A\""

/-- Source document for claim C5: only identifier 001 exists. -/
def srcC5 : PyStr := pstr "---\nsync_quotes: true\n---\n\n> Kept\n^Quote001\n"

/-- Matching mirror for claim C5. -/
def mirC5 : PyStr :=
  pstr "---\ndelete: false\nfavorite: false\nedited: false\nversion: V0.3\n---\n\n> Kept\n\n**Source:** [b](obsidian://open?vault=Notes&file=b%23%5EQuote001)\n\n" ++
    RANDOM_NOTE_LINK ++ pstr "\n"

/-- Orphan mirror for claim C5: its identifier 002 is absent from the
source document. -/
def mirC5Orphan : PyStr :=
  pstr "---\ndelete: false\nfavorite: false\nedited: false\nversion: V0.3\n---\n\n> Gone\n\n**Source:** [b](obsidian://open?vault=Notes&file=b%23%5EQuote002)\n\n" ++
    RANDOM_NOTE_LINK ++ pstr "\n"

/-- Path of the claim C5 matching mirror. -/
def mirC5Path : PyStr := pstr "D/b/b - Quote001 - Kept.md"

/-- Path of the claim C5 orphan mirror. -/
def mirC5OrphanPath : PyStr := pstr "D/b/b - Quote002 - Gone.md"

/-- Filesystem for claim C5. -/
def fsC5 : FS :=
  [(pstr "S/b.md", srcC5), (mirC5Path, mirC5), (mirC5OrphanPath, mirC5Orphan)]

/-- Document with existing identifiers 001 and 003 and two quotations
lacking identifiers, for the allocation example of claim C6. -/
def srcC6 : PyStr := pstr "> a\n^Quote001\n\n> b\n^Quote003\n\n> c\n\n> d\n"

/-- Filesystem for claim C6. -/
def fsC6 : FS := [(pstr "S/c6.md", srcC6)]

/-- Document whose highest identifier is 999, for claim C7. -/
def srcC7a : PyStr := pstr "> q\n^Quote999\n"

/-- Document carrying the four-digit token the allocator builds next, for
claim C7. -/
def srcC7b : PyStr := pstr "> r\n^Quote1000\n"

/-- Document containing the same identifier twice, for claim C8. -/
def srcC8 : PyStr := pstr "> a\n^Quote001\n\n> b\n^Quote001\n"

/-- Single word of thirty-one characters, the claim C9 counterexample
input. -/
def longWordC9 : PyStr := List.replicate 31 'a'

/-- Number of duplicate hits the validation loop reports on a stream of
valid identifier lines, starting from a given seen set: each line already
seen counts one, each new line joins the set. -/
def countDups (seen : List PyStr) : List PyStr → Nat
  | [] => 0
  | a :: l => if seen.contains a then 1 + countDups seen l else countDups (a :: seen) l

/-- Numeric suffixes of the identifier lines of a document, in order —
the list the allocator takes its maximum over. -/
def docIdNums (md : PyStr) : List Nat :=
  (pySplitlines md).filterMap (fun line =>
    let t := pyStripWs line
    if isBlockIdStr t then some (blockIdNum t) else none)

/-- Identifiers already present on the quotes of a freshly parsed source
file (plain references, so no arena is involved): the used set the
assignment loop starts from. -/
def existingIds (sf : SFile) : List PyStr :=
  sf.quotes.filterMap (fun r =>
    match (SQRef.get [] r).block_id with
    | some s => if s.isEmpty then none else some s
    | none => none)

set_option maxRecDepth 400000

/-- C1: a full synchronization pass with dry run on is not write-free and
returns no counts.  On a corpus with one syncable source document whose
quotation lacks an identifier, the dry-run pass rewrites the source file
on disk (step 1 calls SourceVault.save_all, which commits with dry run
off), and the pass then raises TypeError at the step-3 DestinationVault
construction, so the promised result dict never reaches the caller. -/
theorem claim_C1_dry_run_writes_and_returns_no_counts :
    (syncVaults cfgSD true fsC1).1 = [(pstr "S/b.md", srcC1After)] ∧
    (syncVaults cfgSD true fsC1).2 = Except.error PyErr.typeError ∧
    ¬(srcC1After = srcC1) := by
  exact ⟨rfl, rfl, by decide⟩

/-- C2: merging an edited mirror back crashes when the edit changed the
derived filename.  With source text A under identifier 001 and an edited
mirror holding text B in a file named for the old text, the non-dry pass
deletes the old mirror file from disk, then raises AttributeError at the
destination_vault.source_vault access inside DestinationFile.save: the
source still reads A, the mirror file is gone, and no pass result is
returned — instead of the claimed source-becomes-B outcome. -/
theorem claim_C2_merge_back_crashes_after_deleting_mirror :
    (syncVaults cfgSD false fsC2).1 = [(pstr "S/b.md", srcC2)] ∧
    (syncVaults cfgSD false fsC2).2 = Except.error PyErr.attributeError ∧
    fsRead (syncVaults cfgSD false fsC2).1 mirC2Path = none ∧
    fsRead (syncVaults cfgSD false fsC2).1 (pstr "S/b.md") = some srcC2 := by
  exact ⟨rfl, rfl, rfl, rfl⟩

/-- C3: the pass is not idempotent and never even returns counts.  On a
document with two identical quotations lacking identifiers, the first
run persists only one identifier line (_write_block_id_to_file silently
skips the second duplicate), every run raises TypeError at step 3, and
the step-1 subpass of the second run reports one freshly added
identifier again instead of the claimed zero. -/
theorem claim_C3_second_run_not_all_zero :
    syncVaults cfgSD false fsC3 = ([(pstr "S/b.md", srcC3After)], Except.error PyErr.typeError) ∧
    syncVaults cfgSD false [(pstr "S/b.md", srcC3After)] =
      ([(pstr "S/b.md", srcC3After)], Except.error PyErr.typeError) ∧
    (syncVaultsStep1 [(pstr "S/b.md", srcC3After)] (pstr "S") (pstr "S")).2.2.2 = 1 := by
  exact ⟨rfl, rfl, rfl⟩

/-- C4: the full pass never reaches delete-flag processing — it raises
TypeError at the step-3 DestinationVault construction with the corpus
untouched, mirror still on disk — while DestinationVault.delete_flagged
itself, invoked directly as its unit test does, performs exactly the
claimed behavior: the source quotation becomes an untracked quoted
literal with no identifier marker, the mirror file is deleted, and the
unwrapped source no longer parses as any quotation, so no later pass
could recreate the mirror. -/
theorem claim_C4_full_pass_never_reaches_delete_processing :
    syncVaults cfgSD false fsC4 = (fsC4, Except.error PyErr.typeError) ∧
    (DVault.deleteFlagged fsC4 (DVault.load fsC4 (pstr "D")) (pstr "S") false).1 =
      [(pstr "S/b.md", srcC4After)] ∧
    Except.map (fun t => (t.2.1, t.2.2))
      (DVault.deleteFlagged fsC4 (DVault.load fsC4 (pstr "D")) (pstr "S") false).2 =
      Except.ok (1, []) ∧
    pyContainsSub srcC4After (pstr "^Quote001") = false ∧
    pyContainsSub srcC4After (pstr "\"A\"") = true ∧
    extractBlockquotesWithIds srcC4After = [] := by
  refine ⟨rfl, rfl, rfl, by decide, by decide, rfl⟩

/-- C10: the metadata reads accept only the boolean True itself; an
absent key, a string, or an integer reads as False, so such a mirror is
neither protected from propagation overwrites nor merged back. -/
theorem claim_C10_strict_boolean_metadata_reads :
    (∀ m : Fm, isEditedFm m = true ↔ fmGet m (pstr "edited") = some (YVal.b true)) ∧
    (∀ m : Fm, isDeleteFm m = true ↔ fmGet m (pstr "delete") = some (YVal.b true)) ∧
    (∀ (m : Fm) (v : PyStr), fmGet m (pstr "edited") = some (YVal.s v) → isEditedFm m = false) ∧
    (∀ (m : Fm) (n : Int), fmGet m (pstr "edited") = some (YVal.i n) → isEditedFm m = false) ∧
    (∀ m : Fm, fmGet m (pstr "edited") = none → isEditedFm m = false) ∧
    (∀ (m : Fm) (v : PyStr), fmGet m (pstr "delete") = some (YVal.s v) → isDeleteFm m = false) ∧
    (∀ m : Fm, fmGet m (pstr "delete") = none → isDeleteFm m = false) ∧
    (∀ (dq : DQ) (sq : PQuote), fmGet dq.frontmatter (pstr "edited") = some (YVal.s (pstr "true")) →
      ¬(dq.text = sq.text) → (DQ.syncFromSource dq sq false).1 = true) ∧
    (∀ (arena : Arena) (dq : DQ) (dry : Bool),
      fmGet dq.frontmatter (pstr "edited") = some (YVal.s (pstr "true")) →
      DQ.syncToSource arena dq dry = (false, dq, arena)) := by
  have hed : ∀ m : Fm, isEditedFm m = true ↔ fmGet m (pstr "edited") = some (YVal.b true) := by
    intro m; simp [isEditedFm]
  have hde : ∀ m : Fm, isDeleteFm m = true ↔ fmGet m (pstr "delete") = some (YVal.b true) := by
    intro m; simp [isDeleteFm]
  have hs : ∀ (m : Fm) (v : PyStr), fmGet m (pstr "edited") = some (YVal.s v) →
      isEditedFm m = false := by
    intro m v h; simp [isEditedFm, h]
  have hlock : ∀ (dq : DQ) (sq : PQuote),
      fmGet dq.frontmatter (pstr "edited") = some (YVal.s (pstr "true")) →
      ¬(dq.text = sq.text) → (DQ.syncFromSource dq sq false).1 = true := by
    intro dq sq h hne
    have hed0 : dq.isEdited = false := hs dq.frontmatter _ h
    have htxt : (dq.text == sq.text) = false := by
      simp only [beq_eq_false_iff_ne, ne_eq]; exact hne
    simp only [DQ.syncFromSource, hed0, Bool.not_false, Bool.and_false, htxt]
    simp only [Bool.false_eq_true, if_false]
    split <;> simp
  refine ⟨hed, hde, hs, ?_, ?_, ?_, ?_, hlock, ?_⟩
  · intro m n h; simp [isEditedFm, h]
  · intro m h; simp [isEditedFm, h]
  · intro m v h; simp [isDeleteFm, h]
  · intro m h; simp [isDeleteFm, h]
  · intro arena dq dry h
    have hed0 : dq.isEdited = false := hs dq.frontmatter _ h
    simp [DQ.syncToSource, hed0]

/-- Witness for C10: the hypotheses are satisfiable at concrete metadata
maps — a string-valued edited key, an integer-valued edited key, and an
absent key all read as False, and the string-valued edited lock does not
stop a propagation overwrite. -/
theorem claim_C10_witness :
    isEditedFm [(pstr "edited", YVal.s (pstr "true"))] = false ∧
    isEditedFm [(pstr "edited", YVal.i 1)] = false ∧
    isEditedFm [] = false ∧
    (DQ.syncFromSource
      { text := pstr "B", block_id := some (pstr "^Quote001"),
        frontmatter := [(pstr "edited", YVal.s (pstr "true"))] }
      { text := pstr "A", block_id := some (pstr "^Quote001") } false).1 = true := by
  refine ⟨claim_C10_strict_boolean_metadata_reads.2.2.1 _ (pstr "true") (by rfl),
    claim_C10_strict_boolean_metadata_reads.2.2.2.1 _ 1 (by rfl),
    claim_C10_strict_boolean_metadata_reads.2.2.2.2.1 [] (by rfl),
    claim_C10_strict_boolean_metadata_reads.2.2.2.2.2.2.2.1 _ _ (by rfl) (by decide)⟩

theorem natDigitsGo_congr : ∀ f1 f2 n, n < f1 → n < f2 → natDigitsGo f1 n = natDigitsGo f2 n := by
  intro f1
  induction f1 with
  | zero => intro f2 n h; omega
  | succ f ih =>
    intro f2 n h1 h2
    cases f2 with
    | zero => omega
    | succ g =>
      simp only [natDigitsGo]
      by_cases hn : n < 10
      · simp [hn]
      · have hd : n / 10 < n := Nat.div_lt_self (by omega) (by omega)
        simp only [hn, if_false]
        rw [ih g (n / 10) (by omega) (by omega)]

theorem natDigits_unfold (n : Nat) :
    natDigits n = if n < 10 then [Char.ofNat (48 + n)]
      else natDigits (n / 10) ++ [Char.ofNat (48 + n % 10)] := by
  show natDigitsGo (n + 1) n = _
  by_cases hn : n < 10
  · simp [natDigitsGo, hn]
  · have hd : n / 10 < n := Nat.div_lt_self (by omega) (by omega)
    simp only [natDigitsGo, hn, if_false]
    rw [natDigitsGo_congr n (n / 10 + 1) (n / 10) (by omega) (by omega)]
    rfl

theorem natDigits_length_le : ∀ k n, 1 ≤ k → n < 10 ^ k → (natDigits n).length ≤ k := by
  intro k
  induction k with
  | zero => omega
  | succ k ih =>
    intro n _ hn
    rw [natDigits_unfold]
    by_cases h10 : n < 10
    · simp [h10]
    · have hk : 1 ≤ k := by
        by_contra hk0
        have : k = 0 := by omega
        subst this
        simp [pow_succ, pow_zero] at hn
        omega
      have hdiv : n / 10 < 10 ^ k := by
        rw [Nat.div_lt_iff_lt_mul (by omega)]
        calc n < 10 ^ (k + 1) := hn
        _ = 10 ^ k * 10 := by rw [pow_succ]
      simp only [h10, if_false, List.length_append, List.length_cons, List.length_nil]
      have := ih (n / 10) hk hdiv
      omega

theorem natDigits_length_pos : ∀ n, 1 ≤ (natDigits n).length := by
  intro n
  rw [natDigits_unfold]
  by_cases h10 : n < 10 <;> simp [h10]

theorem natDigits_length_ge : ∀ k n, 10 ^ k ≤ n → k + 1 ≤ (natDigits n).length := by
  intro k
  induction k with
  | zero => intro n _; exact natDigits_length_pos n
  | succ k ih =>
    intro n hn
    have h10 : ¬ n < 10 := by
      intro h
      have : 10 ≤ 10 ^ (k + 1) := by
        calc 10 = 10 ^ 1 := (pow_one 10).symm
        _ ≤ 10 ^ (k + 1) := Nat.pow_le_pow_right (by omega) (by omega)
      omega
    rw [natDigits_unfold]
    simp only [h10, if_false, List.length_append, List.length_cons, List.length_nil]
    have hdiv : 10 ^ k ≤ n / 10 := by
      rw [Nat.le_div_iff_mul_le (by omega)]
      calc 10 ^ k * 10 = 10 ^ (k + 1) := (pow_succ 10 k).symm
      _ ≤ n := hn
    have := ih (n / 10) hdiv
    omega

theorem digit_char_isDigit : ∀ d, d < 10 → (Char.ofNat (48 + d)).isDigit = true := by
  intro d h
  interval_cases d <;> decide

theorem natDigits_all_digits : ∀ n, ∀ c ∈ natDigits n, c.isDigit = true := by
  intro n
  induction n using Nat.strong_induction_on with
  | _ n ih =>
    rw [natDigits_unfold]
    by_cases h10 : n < 10
    · simp only [h10, if_true, List.mem_singleton]
      intro c hc; subst hc; exact digit_char_isDigit n h10
    · simp only [h10, if_false, List.mem_append, List.mem_singleton]
      intro c hc
      rcases hc with hc | hc
      · exact ih (n / 10) (Nat.div_lt_self (by omega) (by omega)) c hc
      · subst hc; exact digit_char_isDigit (n % 10) (Nat.mod_lt _ (by omega))

theorem pyFormat3_length (n : Nat) (h : n < 1000) : (pyFormat3 n).length = 3 := by
  have hle := natDigits_length_le 3 n (by omega) (by norm_num; omega)
  have hpos := natDigits_length_pos n
  simp only [pyFormat3, List.length_append, List.length_replicate]
  omega

theorem pyFormat3_all_digits (n : Nat) : ∀ c ∈ pyFormat3 n, c.isDigit = true := by
  intro c hc
  simp only [pyFormat3, List.mem_append, List.mem_replicate] at hc
  rcases hc with hc | hc
  · rw [hc.2]; decide
  · exact natDigits_all_digits n c hc

theorem isBlockIdStr_canonical (n : Nat) : isBlockIdStr (canonicalId n) = decide (n < 1000) := by
  by_cases h : n < 1000
  · have hlen := pyFormat3_length n h
    have hdig := pyFormat3_all_digits n
    obtain ⟨a, b, c, habc⟩ : ∃ a b c, pyFormat3 n = [a, b, c] := by
      match hm : pyFormat3 n with
      | [a, b, c] => exact ⟨a, b, c, rfl⟩
      | [] => rw [hm] at hlen; simp at hlen
      | [a] => rw [hm] at hlen; simp at hlen
      | [a, b] => rw [hm] at hlen; simp at hlen
      | a :: b :: c :: d :: t => rw [hm] at hlen; simp at hlen
    have ha := hdig a (by rw [habc]; simp)
    have hb := hdig b (by rw [habc]; simp)
    have hc := hdig c (by rw [habc]; simp)
    simp only [canonicalId, habc, decide_eq_true h]
    show isBlockIdStr ('^' :: 'Q' :: 'u' :: 'o' :: 't' :: 'e' :: [a, b, c]) = true
    simp [isBlockIdStr, ha, hb, hc]
  · have hge : 4 ≤ (natDigits n).length := natDigits_length_ge 3 n (by norm_num; omega)
    have hfmt : pyFormat3 n = natDigits n := by
      simp only [pyFormat3]
      have : 3 - (natDigits n).length = 0 := by omega
      rw [this]; simp
    obtain ⟨a, b, c, d, t, habc⟩ : ∃ a b c d t, natDigits n = a :: b :: c :: d :: t := by
      match hm : natDigits n with
      | a :: b :: c :: d :: t => exact ⟨a, b, c, d, t, rfl⟩
      | [] => rw [hm] at hge; simp at hge
      | [a] => rw [hm] at hge; simp at hge
      | [a, b] => rw [hm] at hge; simp at hge
      | [a, b, c] => rw [hm] at hge; simp at hge
    simp only [canonicalId, hfmt, habc, decide_eq_false h]
    show isBlockIdStr ('^' :: 'Q' :: 'u' :: 'o' :: 't' :: 'e' :: a :: b :: c :: d :: t) = false
    simp [isBlockIdStr]

/-- C7 counterexample: with the highest identifier 999 the allocator does
produce the four-digit token, but the parser does not bind that token to
the preceding quotation run (the quotation comes back with no
identifier), and validation reports it as malformed — refuting the
claimed grows-naturally acceptance. -/
theorem claim_C7_counterexample :
    getNextBlockId srcC7a = pstr "^Quote1000" ∧
    extractBlockquotesWithIds srcC7b = [(pstr "r", none)] ∧
    ¬(validateBlockIdsFromContent srcC7b = []) := by
  exact ⟨rfl, rfl, by decide⟩

/-- C7 amended: identifiers have exactly three digits, not minimum width
three.  The allocator still returns the four-digit successor of 999, but
the pattern accepts a canonical identifier exactly when its numeric
suffix is below 1000, so the parser leaves the quotation unbound and the
validator reports the four-digit token as malformed. -/
theorem claim_C7_exactly_three_digit_identifiers :
    getNextBlockId srcC7a = pstr "^Quote1000" ∧
    extractBlockquotesWithIds srcC7b = [(pstr "r", none)] ∧
    validateBlockIdsFromContent srcC7b =
      [pstr "Invalid block ID format ^Quote1000 at line 2. Expected format: ^QuoteNNN (where NNN is 3 digits)"] ∧
    (∀ n : Nat, isBlockIdStr (canonicalId n) = decide (n < 1000)) := by
  exact ⟨rfl, rfl, rfl, isBlockIdStr_canonical⟩

theorem validateGo_length : ∀ (lines seen : List PyStr) (n : Nat),
    (validateGo seen n lines).length =
      ((lines.map pyStripWs).filter
        (fun t => !isBlockIdStr t && pyStartsWith t (pstr "^Quote"))).length
      + countDups seen ((lines.map pyStripWs).filter isBlockIdStr) := by
  intro lines
  induction lines with
  | nil => intro seen n; simp [validateGo, countDups]
  | cons l rest ih =>
    intro seen n
    cases hb : isBlockIdStr (pyStripWs l)
    · cases hq : pyStartsWith (pyStripWs l) (pstr "^Quote")
      · simp [validateGo, hb, hq, ih]
      · simp [validateGo, hb, hq, ih]
        omega
    · by_cases hs : pyStripWs l ∈ seen
      · simp [validateGo, hb, hs, countDups, ih]
        omega
      · simp [validateGo, hb, hs, countDups, ih]

theorem countDups_card : ∀ (l seen : List PyStr),
    countDups seen l = l.length - ((l.toFinset) \ seen.toFinset).card := by
  intro l
  induction l with
  | nil => intro seen; simp [countDups]
  | cons a l ih =>
    intro seen
    have hsub : ((l.toFinset) \ seen.toFinset).card ≤ l.length :=
      le_trans (Finset.card_le_card Finset.sdiff_subset) l.toFinset_card_le
    have hcont : (seen.contains a = true) ↔ a ∈ seen := by simp [List.contains]
    by_cases hm : a ∈ seen
    · have hc : seen.contains a = true := hcont.2 hm
      have hms : a ∈ seen.toFinset := List.mem_toFinset.2 hm
      simp only [countDups, hc, if_true, ih seen, List.toFinset_cons, List.length_cons]
      rw [Finset.insert_sdiff_of_mem _ hms]
      omega
    · have hc : seen.contains a = false := by
        rw [Bool.eq_false_iff]; intro h; exact hm (hcont.1 h)
      have hms : a ∉ seen.toFinset := fun h => hm (List.mem_toFinset.1 h)
      simp only [countDups, hc, List.toFinset_cons, List.length_cons, if_false,
        Bool.false_eq_true]
      rw [ih (a :: seen), List.toFinset_cons, Finset.sdiff_insert]
      by_cases hl : a ∈ l.toFinset
      · rw [Finset.insert_eq_self.2 hl]
        have hin : a ∈ l.toFinset \ seen.toFinset := Finset.mem_sdiff.2 ⟨hl, hms⟩
        have := Finset.card_erase_add_one hin
        omega
      · have heq : insert a l.toFinset \ seen.toFinset = insert a (l.toFinset \ seen.toFinset) := by
          ext x
          simp only [Finset.mem_sdiff, Finset.mem_insert]
          constructor
          · rintro ⟨hx | hx, hx2⟩
            · exact Or.inl hx
            · exact Or.inr ⟨hx, hx2⟩
          · rintro (rfl | ⟨hx, hx2⟩)
            · exact ⟨Or.inl rfl, hms⟩
            · exact ⟨Or.inr hx, hx2⟩
        have hnin : a ∉ l.toFinset \ seen.toFinset := fun h => hl (Finset.mem_sdiff.1 h).1
        have herase : (l.toFinset \ seen.toFinset).erase a = l.toFinset \ seen.toFinset :=
          Finset.erase_eq_of_not_mem hnin
        rw [heq, herase, Finset.card_insert_of_not_mem hnin]
        omega

theorem toFinset_replicate_one (k : Nat) (hk : 1 ≤ k) (a : PyStr) :
    (List.replicate k a).toFinset = {a} := by
  induction k with
  | zero => omega
  | succ k ih =>
    by_cases h : 1 ≤ k
    · rw [List.replicate_succ, List.toFinset_cons, ih h]
      simp
    · have : k = 0 := by omega
      subst this
      simp [List.replicate]

/-- C8: duplicate and malformed counting of validation.  In general the
number of errors is the number of valid identifier lines minus the
number of distinct identifiers (one error per duplicate occurrence) plus
one error per malformed identifier-looking line; a document whose
stripped lines are k copies of the same identifier yields exactly k - 1
errors; and the two-occurrence document yields exactly the one duplicate
message.  Validation is a pure function of the document content — by
construction it returns only the error list, so the document is
untouched. -/
theorem claim_C8_one_error_per_duplicate_occurrence :
    (∀ md : PyStr, (validateBlockIdsFromContent md).length =
      ((validIdLines md).length - (validIdLines md).toFinset.card)
        + (malformedIdLines md).length) ∧
    (∀ (md : PyStr) (k : Nat), 1 ≤ k →
      strippedLines md = List.replicate k (pstr "^Quote001") →
      (validateBlockIdsFromContent md).length = k - 1) ∧
    validateBlockIdsFromContent srcC8 =
      [pstr "Duplicate block ID ^Quote001 found at line 5"] := by
  have hgen : ∀ md : PyStr, (validateBlockIdsFromContent md).length =
      ((validIdLines md).length - (validIdLines md).toFinset.card)
        + (malformedIdLines md).length := by
    intro md
    show (validateGo [] 0 (pySplitlines md)).length = _
    rw [validateGo_length (pySplitlines md) [] 0, countDups_card]
    simp only [validIdLines, malformedIdLines, strippedLines, List.toFinset_nil,
      Finset.sdiff_empty]
    omega
  refine ⟨hgen, ?_, rfl⟩
  intro md k hk h
  rw [hgen md]
  have hv : validIdLines md = List.replicate k (pstr "^Quote001") := by
    rw [validIdLines, h]
    exact List.filter_replicate_of_pos (by decide)
  have hm : malformedIdLines md = [] := by
    rw [malformedIdLines, h]
    exact List.filter_replicate_of_neg (by decide)
  rw [hv, hm, toFinset_replicate_one k hk]
  simp

/-- Witness for C8: the replicate hypothesis holds at the two-line
document consisting of the identifier twice, and the theorem yields
exactly one error there. -/
theorem claim_C8_witness :
    (validateBlockIdsFromContent (pstr "^Quote001\n^Quote001")).length = 2 - 1 := by
  exact claim_C8_one_error_per_duplicate_occurrence.2.1
    (pstr "^Quote001\n^Quote001") 2 (by omega) (by decide)

theorem pyRfindChar_spec (s : PyStr) (c : Char) (i : Nat) (h : pyRfindChar s c = some i) :
    i < s.length ∧ s[i]? = some c := by
  simp only [pyRfindChar] at h
  match hf : s.reverse.findIdx? (· == c) with
  | none => rw [hf] at h; simp at h
  | some j =>
    rw [hf] at h
    simp only [Option.some.injEq] at h
    rw [List.findIdx?_eq_some_iff_getElem] at hf
    obtain ⟨hj, hp, _⟩ := hf
    rw [List.length_reverse] at hj
    have hi : i = s.length - 1 - j := h.symm
    have hlen : 0 < s.length := by omega
    constructor
    · omega
    · have hrev : s.reverse[j]? = s[s.length - 1 - j]? := List.getElem?_reverse hj
      have hj2 : j < s.reverse.length := by rw [List.length_reverse]; exact hj
      have hjv : s.reverse[j]? = some (s.reverse.get ⟨j, hj2⟩) :=
        List.getElem?_eq_getElem hj2
      have hc : s.reverse.get ⟨j, hj2⟩ = c := eq_of_beq hp
      rw [hi, ← hrev, hjv, hc]

theorem truncate_back_to_space (t : PyStr) (hlen : ¬ t.length ≤ 30) (i : Nat)
    (hf : pyRfindChar (t.take 30) ' ' = some i) (hpos : 0 < i) :
    truncateWordsToLength t 30 = t.take i ∧ t[i]? = some ' ' := by
  have hspec := pyRfindChar_spec _ _ _ hf
  have htk : (t.take 30).length = 30 := by
    rw [List.length_take]; omega
  have hi30 : i < 30 := by omega
  constructor
  · simp only [truncateWordsToLength, hlen, if_false, hf, hpos, if_true]
    rw [List.take_take]
    congr 1
    omega
  · have := hspec.2
    rw [List.getElem?_take, if_pos hi30] at this
    exact this

theorem truncate_length_le (t : PyStr) : (truncateWordsToLength t 30).length ≤ 30 := by
  simp only [truncateWordsToLength]
  by_cases h : t.length ≤ 30
  · simp [h]
  · simp only [h, if_false]
    match hf : pyRfindChar (t.take 30) ' ' with
    | none => simp [List.length_take]
    | some i =>
      by_cases hi : i > 0
      · simp only [hf, hi, if_true]
        rw [List.length_take, List.length_take]
        omega
      · simp only [hf, hi, if_false]
        simp [List.length_take]

theorem collapseDashes_length_le : ∀ s : PyStr, (collapseDashes s).length ≤ s.length := by
  intro s
  induction s with
  | nil => simp [collapseDashes]
  | cons c1 rest ih =>
    match rest with
    | [] => simp [collapseDashes]
    | c2 :: rest2 =>
      simp only [collapseDashes]
      by_cases h : c1 == '-' && c2 == '-'
      · simp only [h, if_true, List.length_cons]
        exact le_trans ih (by simp)
      · simp only [h, if_false, List.length_cons]
        exact Nat.succ_le_succ ih

theorem pyStripSet_length_le (cs s : PyStr) : (pyStripSet cs s).length ≤ s.length := by
  simp only [pyStripSet, pyRstripSet, pyLstripSet]
  calc ((((s.dropWhile _).reverse.dropWhile _)).reverse).length
      = ((s.dropWhile fun c => cs.contains c).reverse.dropWhile fun c => cs.contains c).length := by
        rw [List.length_reverse]
    _ ≤ (s.dropWhile fun c => cs.contains c).reverse.length :=
        (List.dropWhile_sublist _).length_le
    _ = (s.dropWhile fun c => cs.contains c).length := List.length_reverse _
    _ ≤ s.length := (List.dropWhile_sublist _).length_le

theorem cleanFilenameText_length_le (t : PyStr) : (cleanFilenameText t).length ≤ t.length := by
  simp only [cleanFilenameText]
  calc (pyStripSet (pstr "- ") (collapseDashes (t.map _))).length
      ≤ (collapseDashes (t.map fun c =>
          if c == '\\' || c == '/' || c == ':' then '-' else c)).length :=
        pyStripSet_length_le _ _
    _ ≤ (t.map fun c => if c == '\\' || c == '/' || c == ':' then '-' else c).length :=
        collapseDashes_length_le _
    _ = t.length := List.length_map _ _

theorem wordSegment_length_le30 (t : PyStr) : (quoteFilenameWordSegment t).length ≤ 30 := by
  simp only [quoteFilenameWordSegment]
  exact le_trans (cleanFilenameText_length_le _) (truncate_length_le _)

/-- C9 counterexample: a single word of thirty-one characters is cut at
thirty characters — the resulting filename word segment is not the join
of any number of whole words of the input, so truncation does split a
word. -/
theorem claim_C9_counterexample :
    quoteFilenameWordSegment longWordC9 = List.replicate 30 'a' ∧
    (∀ k, k ≤ (pySplitWs longWordC9).length →
      ¬(quoteFilenameWordSegment longWordC9 = pyJoin (pstr " ") ((pySplitWs longWordC9).take k))) := by
  exact ⟨by decide, by decide⟩

/-- C9 amended: the filename word segment is built from at most five
words of the trimmed text and never exceeds thirty characters, and when
the truncation limit falls inside the text the cut backs up to the last
space of the thirty-character window whenever that window contains a
space at a positive index — but a first word longer than thirty
characters is split at character thirty instead. -/
theorem claim_C9_word_segment_bounds :
    (∀ bt bid t : PyStr, createQuoteFilename bt bid t =
      bt ++ pstr " - " ++ pyLstripSet (pstr "^") bid ++ pstr " - " ++
        quoteFilenameWordSegment t ++ pstr ".md") ∧
    (∀ t : PyStr, quoteFilenameWordSegment t =
      cleanFilenameText (truncateWordsToLength
        (pyJoin (pstr " ") ((pySplitWs (pyStripWs t)).take 5)) 30)) ∧
    (∀ t : PyStr, (quoteFilenameWordSegment t).length ≤ 30) ∧
    (∀ t : PyStr, ¬ t.length ≤ 30 → ∀ i, pyRfindChar (t.take 30) ' ' = some i → 0 < i →
      truncateWordsToLength t 30 = t.take i ∧ t[i]? = some ' ') := by
  exact ⟨fun bt bid t => rfl, fun t => rfl, wordSegment_length_le30, truncate_back_to_space⟩

/-- Witness for C9: a text of thirty-five characters whose
thirty-character window has its last space at index two is cut back to
the first whole word. -/
theorem claim_C9_witness :
    truncateWordsToLength (pstr "ab cd" ++ List.replicate 30 'x') 30 = pstr "ab" ∧
    (pstr "ab cd" ++ List.replicate 30 'x')[2]? = some ' ' := by
  have h := claim_C9_word_segment_bounds.2.2.2 (pstr "ab cd" ++ List.replicate 30 'x')
    (by decide) 2 (by decide) (by decide)
  exact ⟨h.1, h.2⟩

theorem char_toNat_digit (d : Nat) (h : d < 10) : (Char.ofNat (48 + d)).toNat = 48 + d := by
  interval_cases d <;> decide

theorem pyParseDigits_append (xs : PyStr) (c : Char) :
    pyParseDigits (xs ++ [c]) = pyParseDigits xs * 10 + (c.toNat - 48) := by
  simp [pyParseDigits, List.foldl_append]

theorem parse_natDigitsGo : ∀ fuel n, n < fuel → pyParseDigits (natDigitsGo fuel n) = n := by
  intro fuel
  induction fuel with
  | zero => omega
  | succ f ih =>
    intro n h
    simp only [natDigitsGo]
    by_cases h10 : n < 10
    · simp only [h10, if_true]
      show pyParseDigits [Char.ofNat (48 + n)] = n
      simp [pyParseDigits, char_toNat_digit n h10]
    · have hd : n / 10 < n := Nat.div_lt_self (by omega) (by omega)
      simp only [h10, if_false]
      rw [pyParseDigits_append, ih (n / 10) (by omega),
        char_toNat_digit (n % 10) (Nat.mod_lt _ (by omega))]
      omega

theorem parse_natDigits (n : Nat) : pyParseDigits (natDigits n) = n :=
  parse_natDigitsGo (n + 1) n (by omega)

theorem parse_zeros_append : ∀ (m : Nat) (s : PyStr),
    pyParseDigits (List.replicate m '0' ++ s) = pyParseDigits s := by
  intro m
  induction m with
  | zero => intro s; simp
  | succ k ih =>
    intro s
    rw [List.replicate_succ, List.cons_append]
    show pyParseDigits ('0' :: (List.replicate k '0' ++ s)) = pyParseDigits s
    simp only [pyParseDigits, List.foldl_cons]
    have : (0 : Nat) * 10 + ('0'.toNat - 48) = 0 := by decide
    rw [this]
    exact ih s

theorem parse_pyFormat3 (n : Nat) : pyParseDigits (pyFormat3 n) = n := by
  simp only [pyFormat3]
  rw [parse_zeros_append, parse_natDigits]

theorem canonicalId_inj {a b : Nat} (h : canonicalId a = canonicalId b) : a = b := by
  have h2 : pyFormat3 a = pyFormat3 b := by
    simpa [canonicalId] using h
  calc a = pyParseDigits (pyFormat3 a) := (parse_pyFormat3 a).symm
  _ = pyParseDigits (pyFormat3 b) := by rw [h2]
  _ = b := parse_pyFormat3 b

theorem pyStartsWith_append_self : ∀ p s : PyStr, pyStartsWith (p ++ s) p = true := by
  intro p
  induction p with
  | nil => intro s; cases s <;> rfl
  | cons c t ih =>
    intro s
    show (c == c && pyStartsWith (t ++ s) t) = true
    simp [ih s]

theorem pyFindSub_zero_of_startsWith (s pat : PyStr) (h : pyStartsWith s pat = true)
    (hp : pat ≠ []) : pyFindSub s pat = some 0 := by
  cases s with
  | nil =>
    cases pat with
    | nil => exact absurd rfl hp
    | cons p ps => simp [pyStartsWith] at h
  | cons c t => simp [pyFindSub, h]

theorem pyFindSub_none_of_no_caret : ∀ s : PyStr, ('^' ∉ s) →
    pyFindSub s (pstr "^Quote") = none := by
  intro s
  induction s with
  | nil => intro _; rfl
  | cons c t ih =>
    intro h
    have hc : ¬(c = '^') := fun hcc => h (by rw [hcc]; exact List.mem_cons_self _ _)
    have hsw : pyStartsWith (c :: t) (pstr "^Quote") = false := by
      show (('^' == c) && pyStartsWith t (pstr "Quote")) = false
      have : ('^' == c) = false := by
        rw [beq_eq_false_iff_ne]
        exact fun hx => hc hx.symm
      simp [this]
    simp only [pyFindSub, hsw, Bool.false_eq_true, if_false]
    rw [ih (fun hm => h (List.mem_cons_of_mem _ hm))]
    rfl

theorem no_caret_pyFormat3 (n : Nat) : '^' ∉ pyFormat3 n := by
  intro h
  have := pyFormat3_all_digits n '^' h
  simp [Char.isDigit] at this

theorem pySplitSubGo_one (f : Nat) (s pat : PyStr) (ms : Nat) (hf : 0 < f) (hms : 0 < ms)
    (hfind : pyFindSub s pat = none) : pySplitSubGo f s pat ms = [s] := by
  match f, hf with
  | g + 1, _ =>
    simp only [pySplitSubGo, hfind]
    have : ¬(ms = 0) := by omega
    simp [this]

theorem pySplitSubGo_step (f : Nat) (s pat : PyStr) (ms : Nat) (hms : ¬(ms = 0))
    (i : Nat) (hfind : pyFindSub s pat = some i) :
    pySplitSubGo (f + 1) s pat ms =
      s.take i :: pySplitSubGo f (s.drop (i + pat.length)) pat (ms - 1) := by
  simp [pySplitSubGo, hms, hfind]

theorem replace_canonical (k : Nat) :
    pyReplaceSub (canonicalId k) (pstr "^Quote") [] = pyFormat3 k := by
  have hlen : (canonicalId k).length = 6 + (pyFormat3 k).length := by
    simp [canonicalId, pstr]
    omega
  have hsw : pyStartsWith (canonicalId k) (pstr "^Quote") = true := by
    simp only [canonicalId]
    exact pyStartsWith_append_self _ _
  have hfind0 : pyFindSub (canonicalId k) (pstr "^Quote") = some 0 :=
    pyFindSub_zero_of_startsWith _ _ hsw (by decide)
  have hfindF : pyFindSub (pyFormat3 k) (pstr "^Quote") = none :=
    pyFindSub_none_of_no_caret _ (no_caret_pyFormat3 k)
  have hdrop : (canonicalId k).drop (0 + (pstr "^Quote").length) = pyFormat3 k := by
    show ((pstr "^Quote") ++ pyFormat3 k).drop (0 + (pstr "^Quote").length) = pyFormat3 k
    rw [Nat.zero_add]
    exact List.drop_left _ _
  show List.intercalate []
    (pySplitSubGo ((canonicalId k).length + 1) (canonicalId k) (pstr "^Quote")
      ((canonicalId k).length + 1)) = pyFormat3 k
  rw [pySplitSubGo_step _ _ _ _ (by omega) 0 hfind0, hdrop,
    pySplitSubGo_one _ _ _ _ (by rw [hlen]; omega) (by rw [hlen]; omega) hfindF]
  simp [List.intercalate]

theorem incr_canonical (k : Nat) : incrBlockId (canonicalId k) = canonicalId (k + 1) := by
  show pstr "^Quote" ++
    pyFormat3 (pyParseDigits (pyReplaceSub (canonicalId k) (pstr "^Quote") []) + 1) =
      canonicalId (k + 1)
  rw [replace_canonical, parse_pyFormat3]
  rfl

theorem skipUsedIds_spec : ∀ (fuel k : Nat) (used : List PyStr),
    (∃ i, i < fuel ∧ canonicalId (k + i) ∉ used) →
    ∃ m, skipUsedIds fuel (canonicalId k) used = canonicalId m ∧ canonicalId m ∉ used := by
  intro fuel
  induction fuel with
  | zero => rintro k used ⟨i, hi, _⟩; omega
  | succ f ih =>
    rintro k used ⟨i, hi, hnot⟩
    by_cases h : canonicalId k ∈ used
    · have hc : used.contains (canonicalId k) = true := by
        simp [List.contains]; exact h
      have hstep : skipUsedIds (f + 1) (canonicalId k) used =
          skipUsedIds f (canonicalId (k + 1)) used := by
        simp only [skipUsedIds, hc, if_true, incr_canonical]
      rw [hstep]
      rcases i with _ | j
      · exact absurd h (by simpa using hnot)
      · refine ih (k + 1) used ⟨j, by omega, ?_⟩
        have e : k + 1 + j = k + (j + 1) := by omega
        rw [e]
        exact hnot
    · have hc : used.contains (canonicalId k) = false := by
        simp [List.contains]; exact h
      refine ⟨k, ?_, h⟩
      simp only [skipUsedIds, hc, Bool.false_eq_true, if_false]

theorem canonical_fresh_exists (used : List PyStr) (k : Nat) :
    ∃ i, i < used.length + 1 ∧ canonicalId (k + i) ∉ used := by
  by_contra hcon
  push_neg at hcon
  have hnd : ((List.range (used.length + 1)).map (fun i => canonicalId (k + i))).Nodup := by
    refine (List.nodup_range _).map ?_
    intro a b h
    have := canonicalId_inj h
    omega
  have hsub : ((List.range (used.length + 1)).map (fun i => canonicalId (k + i))) ⊆ used := by
    intro x hx
    obtain ⟨i, hi, rfl⟩ := List.mem_map.1 hx
    exact hcon i (List.mem_range.1 hi)
  have hle := (List.subperm_of_subset hnd hsub).length_le
  simp at hle

theorem skipUsedIds_fresh (used : List PyStr) (k : Nat) :
    ∃ m, skipUsedIds (used.length + 1) (canonicalId k) used = canonicalId m ∧
      canonicalId m ∉ used :=
  skipUsedIds_spec _ k used (canonical_fresh_exists used k)

theorem foldl_max_eq : ∀ (t : List Nat) (h : Nat),
    List.foldl Nat.max h t = Nat.max h (List.foldr Nat.max 0 t) := by
  intro t
  induction t with
  | nil => intro h; simp
  | cons a t ih =>
    intro h
    simp only [List.foldl_cons, List.foldr_cons, ih (Nat.max h a)]
    exact Nat.max_assoc h a _

theorem getNextBlockId_formula (md : PyStr) :
    getNextBlockId md = canonicalId ((docIdNums md).foldr Nat.max 0 + 1) := by
  unfold getNextBlockId
  show (match docIdNums md with
    | [] => pstr "^Quote001"
    | h :: t => pstr "^Quote" ++ pyFormat3 ((t.foldl Nat.max h) + 1)) = _
  match hm : docIdNums md with
  | [] => decide
  | h :: t =>
    simp only [List.foldr_cons, canonicalId]
    rw [foldl_max_eq]

theorem getNextBlockId_canonical (md : PyStr) : ∃ m, getNextBlockId md = canonicalId m :=
  ⟨_, getNextBlockId_formula md⟩

theorem newAssigned_cons_true (q0 q2 : PQuote) (rs os : List SQRef)
    (hc : (!optTruthy q0.block_id && !q0.text.isEmpty) = true) (b : PyStr)
    (hb : q2.block_id = some b) :
    newAssigned (SQRef.plain q0 :: rs) (SQRef.plain q2 :: os) = b :: newAssigned rs os := by
  simp only [newAssigned, List.zip_cons_cons, List.filterMap_cons, SQRef.get, hc, if_true, hb]

theorem newAssigned_cons_false (q0 : PQuote) (r2 : SQRef) (rs os : List SQRef)
    (hc : (!optTruthy q0.block_id && !q0.text.isEmpty) = false) :
    newAssigned (SQRef.plain q0 :: rs) (r2 :: os) = newAssigned rs os := by
  simp only [newAssigned, List.zip_cons_cons, List.filterMap_cons, SQRef.get, hc,
    Bool.false_eq_true, if_false]

theorem assignStep_fold_plain : ∀ (rs : List SQRef) (st : AssignSt),
    (∀ r ∈ rs, ∃ q, r = SQRef.plain q) → (∀ k0, st.next = canonicalId k0 →
    ∃ out tail,
      (rs.foldl assignStep st).arena = st.arena ∧
      (rs.foldl assignStep st).quotes = st.quotes ++ out ∧
      (rs.foldl assignStep st).used = st.used ++ tail ∧
      (rs.foldl assignStep st).count = st.count + tail.length ∧
      (∃ k2, (rs.foldl assignStep st).next = canonicalId k2) ∧
      newAssigned rs out = tail ∧
      (∀ x ∈ tail, x ∉ st.used) ∧ tail.Nodup ∧
      (∀ x ∈ tail, ∃ m, x = canonicalId m)) := by
  intro rs
  induction rs with
  | nil =>
    intro st hplain k0 hk
    exact ⟨[], [], rfl, by simp, by simp, by simp, ⟨k0, hk⟩, rfl, by simp, List.nodup_nil,
      by simp⟩
  | cons r rs ih =>
    intro st hplain k0 hk
    obtain ⟨q0, rfl⟩ := hplain r (List.mem_cons_self r rs)
    rw [List.foldl_cons]
    by_cases hc : (!optTruthy q0.block_id && !q0.text.isEmpty) = true
    · obtain ⟨m, hskip, hfreshm⟩ := skipUsedIds_fresh st.used k0
      have hstep : assignStep st (SQRef.plain q0) =
        { arena := st.arena,
          quotes := st.quotes ++ [SQRef.plain { q0 with
            block_id := some (canonicalId m), needs_block_id_assignment := true }],
          used := st.used ++ [canonicalId m],
          next := canonicalId (m + 1),
          count := st.count + 1 } := by
        simp only [assignStep, SQRef.get, hc, if_true, SQRef.put]
        rw [hk, hskip, incr_canonical]
      rw [hstep]
      obtain ⟨out, tail, ha, hq2, hu, hcnt, hnx, hna, hfr, hnd, hcan⟩ :=
        ih { arena := st.arena,
             quotes := st.quotes ++ [SQRef.plain { q0 with
               block_id := some (canonicalId m), needs_block_id_assignment := true }],
             used := st.used ++ [canonicalId m],
             next := canonicalId (m + 1),
             count := st.count + 1 }
          (fun x hx => hplain x (List.mem_cons_of_mem _ hx)) (m + 1) rfl
      refine ⟨SQRef.plain { q0 with
          block_id := some (canonicalId m), needs_block_id_assignment := true } :: out,
        canonicalId m :: tail, ha, ?_, ?_, ?_, hnx, ?_, ?_, ?_, ?_⟩
      · rw [hq2]
        simp
      · rw [hu]
        simp
      · rw [hcnt]
        simp
        omega
      · rw [newAssigned_cons_true q0 _ rs out hc (canonicalId m) rfl, hna]
      · intro x hx
        rcases List.mem_cons.1 hx with h1 | h2
        · rw [h1]; exact hfreshm
        · intro hmem
          exact hfr x h2 (by simp; exact Or.inl hmem)
      · refine List.nodup_cons.2 ⟨?_, hnd⟩
        intro hmem
        exact hfr (canonicalId m) hmem (by simp)
      · intro x hx
        rcases List.mem_cons.1 hx with h1 | h2
        · exact ⟨m, h1⟩
        · exact hcan x h2
    · have hstep : assignStep st (SQRef.plain q0) =
          { st with quotes := st.quotes ++ [SQRef.plain q0] } := by
        simp only [assignStep, SQRef.get, hc, Bool.false_eq_true, if_false]
      rw [hstep]
      obtain ⟨out, tail, ha, hq2, hu, hcnt, hnx, hna, hfr, hnd, hcan⟩ :=
        ih { st with quotes := st.quotes ++ [SQRef.plain q0] }
          (fun x hx => hplain x (List.mem_cons_of_mem _ hx)) k0 hk
      refine ⟨SQRef.plain q0 :: out, tail, ha, ?_, hu, hcnt, hnx, ?_, hfr, hnd, hcan⟩
      · rw [hq2]
        simp
      · rw [newAssigned_cons_false q0 _ rs out (by simpa using hc), hna]

theorem fromFile_plain (fs : FS) (path : PyStr) :
    ∀ r ∈ (SFile.fromFile fs path).quotes, ∃ q, r = SQRef.plain q := by
  intro r hr
  simp only [SFile.fromFile, List.mem_map] at hr
  obtain ⟨tq, _, rfl⟩ := hr
  exact ⟨_, rfl⟩

/-- C6: identifier allocation.  The next identifier of a document is the
canonical token for the maximum existing numeric suffix plus one (one when
no identifiers exist); one assignment run over a freshly parsed source
file hands out pairwise distinct identifiers, none of which collides with
an identifier already present on the file, and each of canonical form; and
on the document with existing identifiers 001 and 003 and two quotations
lacking identifiers, the two missing quotations receive 004 and 005 while
001 and 003 keep their identifiers, with exactly two additions counted. -/
theorem claim_C6_identifier_allocation :
    (∀ md, getNextBlockId md = canonicalId ((docIdNums md).foldr Nat.max 0 + 1)) ∧
    (∀ fs path,
      (newAssigned (SFile.fromFile fs path).quotes
        (assignMissingBlockIds fs [] (SFile.fromFile fs path)).2.1.quotes).Nodup ∧
      (∀ x ∈ newAssigned (SFile.fromFile fs path).quotes
          (assignMissingBlockIds fs [] (SFile.fromFile fs path)).2.1.quotes,
        x ∉ existingIds (SFile.fromFile fs path) ∧ ∃ m, x = canonicalId m)) ∧
    ((assignMissingBlockIds fsC6 []
        (SFile.fromFile fsC6 (pstr "S/c6.md"))).2.1.quotes.map
          (fun r => (SQRef.get [] r).block_id) =
      [some (canonicalId 1), some (canonicalId 3),
       some (canonicalId 4), some (canonicalId 5)]) ∧
    (assignMissingBlockIds fsC6 [] (SFile.fromFile fsC6 (pstr "S/c6.md"))).2.2 = 2 := by
  refine ⟨getNextBlockId_formula, ?_, by rfl, by rfl⟩
  intro fs path
  obtain ⟨out, tail, ha, hq, hu, hcnt, hnx, hna, hfr, hnd, hcan⟩ :=
    assignStep_fold_plain (SFile.fromFile fs path).quotes
      { arena := [], quotes := [], used := existingIds (SFile.fromFile fs path),
        next := getNextBlockId ((fsRead fs path).getD []),
        count := 0 }
      (fromFile_plain fs path)
      ((docIdNums ((fsRead fs path).getD [])).foldr Nat.max 0 + 1)
      (getNextBlockId_formula _)
  have hbr : (assignMissingBlockIds fs [] (SFile.fromFile fs path)).2.1.quotes =
      ((SFile.fromFile fs path).quotes.foldl assignStep
        { arena := [], quotes := [], used := existingIds (SFile.fromFile fs path),
          next := getNextBlockId ((fsRead fs path).getD []),
          count := 0 }).quotes := rfl
  have hout : newAssigned (SFile.fromFile fs path).quotes
      (assignMissingBlockIds fs [] (SFile.fromFile fs path)).2.1.quotes = tail := by
    rw [hbr, hq]
    simpa using hna
  rw [hout]
  exact ⟨hnd, fun x hx => ⟨hfr x hx, hcan x hx⟩⟩

theorem claim_C6_witness :
    getNextBlockId srcC6 = canonicalId 4 ∧
    canonicalId 4 ∉ existingIds (SFile.fromFile fsC6 (pstr "S/c6.md")) := by
  constructor
  · rw [claim_C6_identifier_allocation.1 srcC6]
    rfl
  · exact ((claim_C6_identifier_allocation.2.1 fsC6 (pstr "S/c6.md")).2
      (canonicalId 4) (by decide)).1

theorem fsRead_fsWrite_ne (fs : FS) (p c q : PyStr) (h : q ≠ p) :
    fsRead (fsWrite fs p c) q = fsRead fs q := by
  have hpq : (p == q) = false := by
    simp only [beq_eq_false_iff_ne, ne_eq]
    exact fun e => h e.symm
  induction fs with
  | nil => simp [fsWrite, fsRead, hpq]
  | cons e t ih =>
    rcases e with ⟨p1, c1⟩
    by_cases h1 : p1 = p
    · subst h1
      simp [fsWrite, fsRead, hpq]
    · have h1b : (p1 == p) = false := by simp [beq_eq_false_iff_ne]; exact h1
      simp only [fsWrite, h1b, Bool.false_eq_true, if_false, fsRead]
      rw [ih]

theorem fsRead_fsRemove_ne (fs : FS) (p q : PyStr) (h : q ≠ p) :
    fsRead (fsRemove fs p) q = fsRead fs q := by
  induction fs with
  | nil => rfl
  | cons e t ih =>
    rcases e with ⟨p1, c1⟩
    by_cases h1 : p1 = p
    · subst h1
      have hpq : (p1 == q) = false := by
        simp only [beq_eq_false_iff_ne, ne_eq]
        exact fun e => h e.symm
      simp only [fsRemove, List.filter_cons] at ih ⊢
      simp only [beq_self_eq_true, Bool.not_true, Bool.false_eq_true, if_false, fsRead, hpq]
      exact ih
    · have h1b : (p1 == p) = false := by simp [beq_eq_false_iff_ne]; exact h1
      simp only [fsRemove, List.filter_cons] at ih ⊢
      simp only [h1b, Bool.not_false, if_true, fsRead]
      rw [ih]

theorem dfileDelete_frame (fs : FS) (p q : PyStr) (h : q ≠ p) :
    fsRead (dfileDelete fs p) q = fsRead fs q := by
  unfold dfileDelete
  by_cases h1 : (!p.isEmpty && fsExists fs p) = true
  · simp [h1, fsRead_fsRemove_ne _ _ _ h]
  · simp [h1]

theorem dfile_save_frame (fs : FS) (d : DFile) (p q : PyStr) (h : q ≠ p) :
    fsRead (DFile.save fs d p).1 q = fsRead fs q := by
  unfold DFile.save
  by_cases h1 : p.isEmpty = true
  · simp [h1]
  · by_cases h2 : d.has_destination_vault = true
    · simp [h1, h2]
    · simp [h1, h2, fsRead_fsWrite_ne _ _ _ _ h]

theorem commitGo_frame : ∀ (ds : List DFile) (fs : FS) (dry : Bool) (q : PyStr),
    (∀ d ∈ ds, q ≠ d.path.getD []) →
    fsRead (commitGo fs dry ds).1 q = fsRead fs q := by
  intro ds
  induction ds with
  | nil => intro fs dry q h; rfl
  | cons d rest ih =>
    intro fs dry q h
    have hd : q ≠ d.path.getD [] := h d (List.mem_cons_self _ _)
    have hrest : ∀ x ∈ rest, q ≠ x.path.getD [] := fun x hx => h x (List.mem_cons_of_mem _ hx)
    by_cases h1 : d.marked_for_deletion = true
    · have hfs1 : fsRead (if !dry && optTruthy d.path then
          dfileDelete fs (d.path.getD []) else fs) q = fsRead fs q := by
        by_cases hc : (!dry && optTruthy d.path) = true
        · simp [hc, dfileDelete_frame _ _ _ hd]
        · simp [hc]
      simp only [commitGo, h1, if_true]
      rcases hres : commitGo (if !dry && optTruthy d.path then
          dfileDelete fs (d.path.getD []) else fs) dry rest with ⟨fs2, r2⟩
      have hih := ih (if !dry && optTruthy d.path then
          dfileDelete fs (d.path.getD []) else fs) dry q hrest
      rw [hres] at hih
      cases r2 <;> simpa using hih.trans hfs1
    · by_cases h2 : (d.needs_update || d.is_new) = true
      · by_cases h3 : (!dry && optTruthy d.path) = true
        · simp only [commitGo, h1, Bool.false_eq_true, if_false, h2, if_true, h3]
          split
          · rename_i fs1 d1 hsave
            have hfs1 : fsRead fs1 q = fsRead fs q := by
              have hsf := dfile_save_frame fs d (d.path.getD []) q hd
              rw [hsave] at hsf
              simpa using hsf
            have hih := ih fs1 dry q hrest
            split
            · rename_i fs2 ds2 hres
              rw [hres] at hih
              simpa using hih.trans hfs1
            · rename_i fs2 e2 hres
              rw [hres] at hih
              simpa using hih.trans hfs1
          · rename_i fs1 e1 hsave
            have hsf := dfile_save_frame fs d (d.path.getD []) q hd
            rw [hsave] at hsf
            simpa using hsf
        · simp only [commitGo, h1, Bool.false_eq_true, if_false, h2, if_true, h3]
          rcases hres : commitGo fs dry rest with ⟨fs2, r2⟩
          have hih := ih fs dry q hrest
          rw [hres] at hih
          cases r2 <;> simpa using hih
      · simp only [commitGo, h1, Bool.false_eq_true, if_false, h2]
        rcases hres : commitGo fs dry rest with ⟨fs2, r2⟩
        have hih := ih fs dry q hrest
        rw [hres] at hih
        cases r2 <;> simpa using hih

theorem commitChanges_frame (fs : FS) (dv : DVault) (dry : Bool) (q : PyStr)
    (h : ∀ d ∈ dv.files, q ≠ d.path.getD []) :
    fsRead (DVault.commitChanges fs dv dry).1 q = fsRead fs q := by
  unfold DVault.commitChanges
  rcases hres : commitGo fs dry dv.files with ⟨fs1, r⟩
  have hgo := commitGo_frame dv.files fs dry q h
  rw [hres] at hgo
  cases r <;> simpa using hgo

theorem removeOrphaned_frame (fs : FS) (dv : DVault) (ids : List PyStr) (dry : Bool)
    (q : PyStr) (h : ∀ d ∈ dv.files, q ≠ d.path.getD []) :
    fsRead (DVault.removeOrphanedQuotesForSource fs dv ids dry).1 q = fsRead fs q := by
  unfold DVault.removeOrphanedQuotesForSource
  have h1 : ∀ d ∈ (dv.files.map (fun d =>
      if optTruthy d.quote.block_id && !ids.contains (d.quote.block_id.getD []) then
        ({ d with marked_for_deletion := true }, 1)
      else (d, 0))).map Prod.fst, q ≠ d.path.getD [] := by
    intro x hx
    simp only [List.mem_map] at hx
    obtain ⟨pr, ⟨d0, hd0, hpr⟩, hfst⟩ := hx
    subst hfst
    subst hpr
    split <;> simpa using h d0 hd0
  by_cases hdry : (!dry) = true
  · simp only [hdry, if_true]
    rcases hres : DVault.commitChanges fs
      { dv with files := (dv.files.map (fun d =>
        if optTruthy d.quote.block_id && !ids.contains (d.quote.block_id.getD []) then
          ({ d with marked_for_deletion := true }, 1)
        else (d, 0))).map Prod.fst } false with ⟨fs1, r⟩
    have hcc := commitChanges_frame fs
      { dv with files := (dv.files.map (fun d =>
        if optTruthy d.quote.block_id && !ids.contains (d.quote.block_id.getD []) then
          ({ d with marked_for_deletion := true }, 1)
        else (d, 0))).map Prod.fst } false q h1
    rw [hres] at hcc
    cases r <;> simpa using hcc
  · simp [hdry]

/-- C5: orphan removal.  The full synchronization pass never deletes an
orphaned mirror: on a corpus with a source document whose only identifier
is 001 and two mirrors for 001 and the absent 002, the pass raises
TypeError with the filesystem unchanged, the orphan mirror still present.
The removal routine itself, invoked directly as the specification
describes, does delete the orphan, keeps the matching mirror, counts one
deletion, and — in general — never changes any path outside the mirror
files it holds, in particular the source file. -/
theorem claim_C5_orphan_removal_unreachable :
    syncVaults cfgSD false fsC5 = (fsC5, Except.error PyErr.typeError) ∧
    fsExists fsC5 mirC5OrphanPath = true ∧
    (DVault.removeOrphanedQuotesForSource fsC5 (DVault.load fsC5 (pstr "D"))
      (validIdLines srcC5) false).1 =
      [(pstr "S/b.md", srcC5), (mirC5Path, mirC5)] ∧
    Except.map (fun t => t.2)
      (DVault.removeOrphanedQuotesForSource fsC5 (DVault.load fsC5 (pstr "D"))
        (validIdLines srcC5) false).2 = Except.ok 1 ∧
    (∀ (fs : FS) (dv : DVault) (ids : List PyStr) (dry : Bool) (q : PyStr),
      (∀ d ∈ dv.files, q ≠ d.path.getD []) →
      fsRead (DVault.removeOrphanedQuotesForSource fs dv ids dry).1 q = fsRead fs q) :=
  ⟨rfl, rfl, rfl, rfl, removeOrphaned_frame⟩

theorem claim_C5_witness :
    (∀ d ∈ (DVault.load fsC5 (pstr "D")).files, pstr "S/b.md" ≠ d.path.getD []) ∧
    fsRead (DVault.removeOrphanedQuotesForSource fsC5 (DVault.load fsC5 (pstr "D"))
      (validIdLines srcC5) false).1 (pstr "S/b.md") = fsRead fsC5 (pstr "S/b.md") :=
  ⟨by decide, claim_C5_orphan_removal_unreachable.2.2.2.2 fsC5 (DVault.load fsC5 (pstr "D"))
    (validIdLines srcC5) false (pstr "S/b.md") (by decide)⟩

end QVM
